import Mathlib

/-!
# Verification of the p3py numerical estimation core

Shallow embedding of `src/p3py/gls.py`, `src/p3py/sammy/_utils.py` and
`src/p3py/sammy/methods.py`.

Modelling conventions:

* numpy 2-D arrays of floats are modelled as `Mat := List (List ℚ)`
  (row-major, exact rational arithmetic in place of floating point).
* `numpy.linalg.inv` is modelled by `la_inv`, computing the unique matrix
  inverse as adjugate over determinant and signalling `Err.singular` when the
  determinant is zero (numpy raises `LinAlgError: Singular matrix` there) and
  `Err.dimMismatch` for a non-square input (numpy's native `LinAlgError`);
  both are failures of the external linear-algebra provider, not `p3py` code.
* `@` (matrix product) and `+`/`-` on conforming arrays are `mmul`, `madd`,
  `msub`; a dimension mismatch yields the provider's native failure
  `Err.dimMismatch` (numpy raises `ValueError`).  General numpy broadcasting
  is not modelled; no claim depends on it (the one broadcast the repository
  relies on is noted at `method2`).
* `numpy.sqrt` (element-wise square root) is an external collaborator per the
  spec; it is modelled by an arbitrary function parameter `np_sqrt : ℚ → ℚ`
  threaded through the definitions that use it, so every theorem holds for
  every implementation of that collaborator.
* Python exceptions are modelled by `Except Err`: the `AssertionError`s raised
  by the validators become the shape-error constructors of `Err`, the
  `NameError`s of the Method-2 family become the unknown-variant constructors.
* `print` calls are modelled as trace events (`Ev`); each function that prints
  returns its result paired with the list of events it emitted.  The printed
  text itself is display-only and carries no information a claim depends on,
  so events record the printed values, not the formatted strings.
-/

/-- A numpy 2-D array of floats, modelled row-major over exact rationals. -/
abbrev Mat : Type := List (List ℚ)

/-- Number of columns: the length of the first row (`shape[1]`). -/
def nCols (A : Mat) : Nat := (A.headD []).length

/-- All rows have the same length: `np.array` of such a nested list is 2-D.
A ragged nested list does not produce a 2-D float array, so it falls into the
same branches as a 1-D input in the shape validators. -/
def rectb (A : Mat) : Bool := A.all (fun row => row.length == nCols A)

/-- numpy scalar indexing `A[i, j]` (all claim-relevant accesses are in
bounds; out-of-range indices default to `0` rather than raising). -/
def idx (A : Mat) (i j : Nat) : ℚ := (A.getD i []).getD j 0

/-- `np.ones((m, k))`. -/
def np_ones (m k : Nat) : Mat := List.replicate m (List.replicate k (1 : ℚ))

/-- An `m × k` matrix of zeros. -/
def zeroMat (m k : Nat) : Mat := List.replicate m (List.replicate k (0 : ℚ))

/-- `np.diag(v)` for a 1-D `v`: the square matrix with `v` on the diagonal. -/
def np_diag (v : List ℚ) : Mat :=
  (List.range v.length).map (fun i =>
    (List.range v.length).map (fun j => if i = j then v.getD i 0 else 0))

/-- Matrix transpose (`A.T`). -/
def transpose (A : Mat) : Mat :=
  (List.range (nCols A)).map (fun j => A.map (fun row => row.getD j 0))

/-- Dot product of two rows. -/
def dot (u v : List ℚ) : ℚ := (List.zipWith (· * ·) u v).sum

/-- Errors observable from the embedded functions.  The first five model the
distinguishable `AssertionError`s of the validators (the spec's `ShapeError`
kinds); `singular` and `dimMismatch` are the linear-algebra provider's native
failures (`numpy.linalg.LinAlgError`, `ValueError`); the last two model the
`NameError`s raised by the Method-2 family for invalid variant selectors. -/
inductive Err : Type where
  | not2D               -- "Error: Covariance matrix must be 2-D"
  | notSquare           -- "Error: Covariance matrix must be square"
  | designRowMismatch   -- "Error: Design matrix must have same number of rows ..."
  | dataNotColumn       -- "Error: Data points must be given in a column vector."
  | dataRowMismatch     -- "Error: Number of rows in Y must equal size of V."
  | singular            -- numpy.linalg.LinAlgError: Singular matrix
  | dimMismatch         -- provider's native shape-mismatch failure
  | unknownCountsMethod       -- NameError "Unknown counts_method value ..."
  | unknownSensCountsMethod   -- NameError "Unknown sens_method value ... or counts_method value ..."
  deriving DecidableEq

/-- The spec's abstract `ShapeError` kind: the validator `AssertionError`s. -/
def isShapeErr : Err → Bool
  | .not2D | .notSquare | .designRowMismatch | .dataNotColumn | .dataRowMismatch => true
  | _ => false

/-- Matrix product `A @ B`; the provider's native failure on mismatch. -/
def mmul (A B : Mat) : Except Err Mat :=
  if rectb A ∧ rectb B ∧ nCols A = B.length then
    .ok (A.map (fun row => (transpose B).map (fun col => dot row col)))
  else .error .dimMismatch

/-- Element-wise sum `A + B` of two same-shape 2-D arrays. -/
def madd (A B : Mat) : Except Err Mat :=
  if A.length = B.length ∧ nCols A = nCols B ∧ rectb A ∧ rectb B then
    .ok (List.zipWith (fun u v => List.zipWith (· + ·) u v) A B)
  else .error .dimMismatch

/-- Element-wise difference `A - B` of two same-shape 2-D arrays. -/
def msub (A B : Mat) : Except Err Mat :=
  if A.length = B.length ∧ nCols A = nCols B ∧ rectb A ∧ rectb B then
    .ok (List.zipWith (fun u v => List.zipWith (· - ·) u v) A B)
  else .error .dimMismatch

/-- Determinant by Laplace expansion along the first row; the `Nat` argument
is the size, making the recursion structural (and kernel-friendly). -/
def detN : Nat → Mat → ℚ
  | 0, _ => 1
  | Nat.succ k, A =>
      (List.range (Nat.succ k)).foldr
        (fun j acc =>
          (-1 : ℚ) ^ j * (A.headD []).getD j 0 *
            detN k (A.tail.map (fun row => row.eraseIdx j)) + acc) 0

/-- Adjugate (transposed cofactor matrix) of a square list matrix. -/
def adjL (A : Mat) : Mat :=
  (List.range A.length).map (fun i =>
    (List.range A.length).map (fun j =>
      (-1 : ℚ) ^ (i + j) *
        detN (A.length - 1) ((A.eraseIdx j).map (fun row => row.eraseIdx i))))

/-- `numpy.linalg.inv`: the unique inverse of a square invertible matrix,
computed as adjugate over determinant.  A singular matrix is the provider's
`LinAlgError: Singular matrix` (`Err.singular`); a non-square or non-2-D
input is the provider's native `LinAlgError` (`Err.dimMismatch`). -/
def la_inv (A : Mat) : Except Err Mat :=
  if rectb A ∧ A.length = nCols A ∧ A ≠ [] then
    let d := detN A.length A
    if d = 0 then .error .singular
    else .ok ((adjL A).map (fun row => row.map (fun x => d⁻¹ * x)))
  else .error .dimMismatch

/-- Trace events standing for the `print` calls (verbose mode).  The
formatted text is display-only; events carry the values printed. -/
inductive Ev : Type where
  | pX (m : Mat)      -- get_gls_estimate: print("\nX:\n", X)
  | pY (m : Mat)      -- get_gls_estimate / calc_m_plus_w: the Y matrix
  | pV (m : Mat)      -- get_gls_estimate: the V matrix
  | pXtVi (m : Mat)   -- get_gls_estimate: X.T @ la.inv(V)
  | pConst (m : Mat)  -- get_gls_estimate: la.inv(X.T @ la.inv(V) @ X)
  | pW (m : Mat)          -- calc_m_plus_w: W
  | pMprime (m : Mat)     -- calc_m_plus_w: M_prime
  | pPprime (m : Mat)     -- calc_m_plus_w: P_prime
  | ppVals (rho ratio : ℚ)  -- check_2x2_matrix_for_PPP: the two compared values
  | ppYes                   -- check_2x2_matrix_for_PPP: "PPP"
  | ppNo                    -- check_2x2_matrix_for_PPP: "no PPP"
  | ppShapeMsg              -- "Error: Covariance matrix must be 2x2 for PPP testing."
  | params (P M : Mat)      -- print_parameters(P, M)
  deriving DecidableEq

/-- The string literal "exp" (variant selector value). -/
def exp_str : String := "exp"

/-- The string literal "theo" (variant selector value). -/
def theo_str : String := "theo"

/-- The string literal "bad": a representative invalid selector value. -/
def bad_str : String := "bad"

/-- Default of the `verbose` keyword of `get_gls_estimate`. -/
def get_gls_estimate_default_verbose : Bool := false

/-- Default of the `verbose` keyword of `check_2x2_matrix_for_PPP`.
NOTE: the source default is `True`, unlike every other `verbose` flag. -/
def check_2x2_matrix_for_PPP_default_verbose : Bool := true

/-- Default of the `verbose` keyword of `calc_m_plus_w`. -/
def calc_m_plus_w_default_verbose : Bool := false

/-- Default of the `verbose` keyword of `method1`. -/
def method1_default_verbose : Bool := false

/-- Default of the `verbose` keyword of `method2` (also `method2a`/`2b`). -/
def method2_default_verbose : Bool := false

/-- `gls.get_gls_unc(V, X=None)`: validates shapes, then returns
`np.sqrt(la.inv(X.T @ la.inv(V) @ X))` (element-wise square root of the full
inverted information matrix).  It takes no `verbose` flag and prints nothing.
The three `AssertionError`s are modelled by the three shape-error values; a
1-D (or ragged) covariance input hits the `IndexError` branch, re-raised as
the not-2-D `AssertionError`. -/
def get_gls_unc (np_sqrt : ℚ → ℚ) (V : Mat) (Xopt : Option Mat := none) :
    Except Err Mat :=
  -- if X is not given, default is column of 1's: np.ones((len(V), 1))
  let X := Xopt.getD (np_ones V.length 1)
  if ¬ (rectb V ∧ V ≠ []) then .error .not2D
  else if V.length ≠ nCols V then .error .notSquare
  else if X.length ≠ V.length then .error .designRowMismatch
  else do
    -- np.sqrt(la.inv(X.T @ la.inv(V) @ X)), products taken left-associated
    let Vi ← la_inv V
    let XtVi ← mmul (transpose X) Vi
    let XtViX ← mmul XtVi X
    let S ← la_inv XtViX
    pure (S.map (fun row => row.map np_sqrt))

/-- `gls.get_gls_estimate(Y, V, X=None, verbose=False)`: first calls
`get_gls_unc` (which also performs the V/X shape checks), then validates the
shape of `Y`, then (optionally printing the intermediates) computes
`la.inv(X.T @ la.inv(V) @ X) @ X.T @ la.inv(V) @ Y`.  The source re-computes
`X.T` and `la.inv(V)` several times; all recomputations are deterministic and
yield the values bound once here. -/
def get_gls_estimate (np_sqrt : ℚ → ℚ) (Y V : Mat) (Xopt : Option Mat := none)
    (verbose : Bool := get_gls_estimate_default_verbose) :
    Except Err (Mat × Mat) × List Ev :=
  -- if X is not given, default is column of 1's
  let X := Xopt.getD (np_ones V.length 1)
  -- first get the uncertainty, which also checks the matrices
  match get_gls_unc np_sqrt V (some X) with
  | .error e => (.error e, [])
  | .ok unc =>
    -- check shape of Y (raised as AssertionError after the unc computation)
    if nCols Y ≠ 1 then (.error .dataNotColumn, [])
    else if Y.length ≠ V.length then (.error .dataRowMismatch, [])
    else
      match la_inv V with
      | .error e => (.error e, [])
      | .ok Vi =>
        match mmul (transpose X) Vi with
        | .error e => (.error e, [])
        | .ok XtVi =>
          match mmul XtVi X with
          | .error e => (.error e, [])
          | .ok XtViX =>
            match la_inv XtViX with
            | .error e => (.error e, [])
            | .ok const =>
              let tr := if verbose then
                  [Ev.pX X, Ev.pY Y, Ev.pV V, Ev.pXtVi XtVi, Ev.pConst const]
                else []
              -- est = la.inv(X.T @ la.inv(V) @ X) @ X.T @ la.inv(V) @ Y
              match mmul const (transpose X) with
              | .error e => (.error e, tr)
              | .ok cXt =>
                match mmul cXt Vi with
                | .error e => (.error e, tr)
                | .ok cXtVi =>
                  match mmul cXtVi Y with
                  | .error e => (.error e, tr)
                  | .ok est => (.ok (est, unc), tr)

/-- `gls.check_2x2_matrix_for_PPP(V, verbose=True)`: for a non-2x2 input,
prints a message and returns `None` (no exception); otherwise compares the
correlation coefficient against the ratio of the smaller to the larger
uncertainty and returns the strict-inequality boolean. -/
def check_2x2_matrix_for_PPP (np_sqrt : ℚ → ℚ) (V : Mat)
    (verbose : Bool := check_2x2_matrix_for_PPP_default_verbose) :
    Option Bool × List Ev :=
  if ¬ (rectb V ∧ V.length = 2 ∧ nCols V = 2) then
    (none, [Ev.ppShapeMsg])
  else
    -- sigma1, sigma2 = np.sqrt(np.diag(V))
    let sigma1 := np_sqrt (idx V 0 0)
    let sigma2 := np_sqrt (idx V 1 1)
    -- ratio of the smaller to the larger
    let ratio := min (sigma1 / sigma2) (sigma2 / sigma1)
    -- corr coefficient from one of the off-diagonals
    let rho := idx V 0 1 / sigma1 / sigma2
    (some (decide (rho > ratio)),
     if verbose then
       [Ev.ppVals rho ratio, if rho > ratio then Ev.ppYes else Ev.ppNo]
     else [])

/-- `sammy._utils.calc_m_plus_w(P, M_inv, D, V, T, G, verbose=False)`:
`Y = G.T @ la.inv(V) @ (D - T)`, `W = G.T @ la.inv(V) @ G`,
`M' = la.inv(M_inv + W)`, `P' = P + M' @ Y`.  No shape validation of its own:
every failure is a propagated provider failure.  The source computes
`la.inv(V)` and `G.T` once per line; the recomputations are deterministic and
are bound once here. -/
def calc_m_plus_w (P M_inv D V T G : Mat)
    (verbose : Bool := calc_m_plus_w_default_verbose) :
    Except Err (Mat × Mat) × List Ev :=
  match la_inv V with
  | .error e => (.error e, [])
  | .ok Vi =>
    match mmul (transpose G) Vi with
    | .error e => (.error e, [])
    | .ok GtVi =>
      match msub D T with
      | .error e => (.error e, [])
      | .ok DT =>
        match mmul GtVi DT with
        | .error e => (.error e, [])
        | .ok Y =>
          let t1 := if verbose then [Ev.pY Y] else []
          match mmul GtVi G with
          | .error e => (.error e, t1)
          | .ok W =>
            let t2 := if verbose then [Ev.pW W] else []
            match madd M_inv W with
            | .error e => (.error e, t1 ++ t2)
            | .ok MW =>
              match la_inv MW with
              | .error e => (.error e, t1 ++ t2)
              | .ok M_prime =>
                let t3 := if verbose then [Ev.pMprime M_prime] else []
                match mmul M_prime Y with
                | .error e => (.error e, t1 ++ t2 ++ t3)
                | .ok MY =>
                  match madd P MY with
                  | .error e => (.error e, t1 ++ t2 ++ t3)
                  | .ok P_prime =>
                    let t4 := if verbose then [Ev.pPprime P_prime] else []
                    (.ok (P_prime, M_prime), t1 ++ t2 ++ t3 ++ t4)

/-- `sammy._utils.print_parameters(P, M)`: pretty-prints each parameter with
its uncertainty, rounded for display.  Display-only; recorded as one event
carrying the raw inputs. -/
def print_parameters (P M : Mat) : List Ev := [Ev.params P M]

/-- `sammy.methods.method1(r, dr, n, dn, verbose=False)`.  All inputs of
interest have two counts; `r[0]`, `r[1]` are modelled with a `0` default for
out-of-range access (never exercised by a claim). -/
def method1 (np_sqrt : ℚ → ℚ) (r dr : List ℚ) (n dn : ℚ)
    (verbose : Bool := method1_default_verbose) :
    Except Err (Mat × Mat) × List Ev :=
  -- D = np.array([[r[0]], [r[1]]]); V = np.diag(np.array(dr)**2)
  let D : Mat := [[r.getD 0 0], [r.getD 1 0]]
  let V : Mat := np_diag (dr.map (fun x => x ^ 2))
  match get_gls_estimate np_sqrt D V none false with
  | (.error e, _) => (.error e, [])
  | (.ok (D_av, _), _) =>
    -- prior of X is the normalized average: X = D_av[0,0] / n
    let X : ℚ := idx D_av 0 0 / n
    -- T = nX in both rows
    let T : Mat := [[n * X], [n * X]]
    -- M_inv = np.zeros((2,2)); M_inv[-1,-1] = 1/dn**2
    let M_inv : Mat := [[0, 0], [0, 1 / dn ^ 2]]
    -- G = np.hstack(([[n],[n]], [[X],[X]]))
    let G : Mat := [[n, X], [n, X]]
    -- P = np.array([[X],[n]])
    let P : Mat := [[X], [n]]
    match calc_m_plus_w P M_inv D V T G false with
    | (.error e, _) => (.error e, [])
    | (.ok (P_prime, M_prime), _) =>
      (.ok (P_prime, M_prime), if verbose then print_parameters P_prime M_prime else [])

/-- `sammy.methods.method2(r, dr, n, dn, verbose=False, sens_method='exp',
counts_method='exp')`.  The prior `X` is dispatched on `counts_method` (the
`'exp'` branch runs the whole of `method1`), then `V` on `sens_method`; an
unrecognised selector value raises a `NameError` at its dispatch point.
`P = np.array([X])` has numpy shape `(1,)`; added to the `(1,1)` result of
`M' @ Y` it broadcasts exactly like the `1×1` column `[[X]]` used here. -/
def method2 (np_sqrt : ℚ → ℚ) (r dr : List ℚ) (n dn : ℚ)
    (verbose : Bool := method2_default_verbose)
    (sens_method : String := exp_str) (counts_method : String := exp_str) :
    Except Err (Mat × Mat) × List Ev :=
  -- D values are the individual normalized data points
  let D : Mat := [[r.getD 0 0 / n], [r.getD 1 0 / n]]
  let dr_sq : List ℚ := dr.map (fun x => x ^ 2)
  let n_rel : ℚ := dn ^ 2 / n ^ 2
  -- counts dispatch: the prior X
  let priorX : Except Err ℚ :=
    if counts_method = exp_str then
      -- the prior X is the method 1 solution if using experimental counts
      match method1 np_sqrt r dr n dn false with
      | (.error e, _) => .error e
      | (.ok (P1, _), _) => .ok (idx P1 0 0)
    else if counts_method = theo_str then
      -- prior X is the unweighted mean: np.mean(D)
      .ok ((idx D 0 0 + idx D 1 0) / 2)
    else
      .error .unknownCountsMethod
  match priorX with
  | .error e => (.error e, [])
  | .ok X =>
    -- sens dispatch: the covariance V
    let VE : Except Err Mat :=
      if sens_method = exp_str then
        .ok [[dr_sq.getD 0 0 / n ^ 2 + n_rel * idx D 0 0 ^ 2, n_rel * idx D 0 0 * idx D 1 0],
             [n_rel * idx D 0 0 * idx D 1 0, dr_sq.getD 1 0 / n ^ 2 + n_rel * idx D 1 0 ^ 2]]
      else if sens_method = theo_str ∧ counts_method = exp_str then
        -- method 2a
        .ok [[dr_sq.getD 0 0 / n ^ 2 + n_rel * X ^ 2, n_rel * X ^ 2],
             [n_rel * X ^ 2, dr_sq.getD 1 0 / n ^ 2 + n_rel * X ^ 2]]
      else if sens_method = theo_str ∧ counts_method = theo_str then
        -- method 2b
        .ok [[X / n + n_rel * X ^ 2, n_rel * X ^ 2],
             [n_rel * X ^ 2, X / n + n_rel * X ^ 2]]
      else
        .error .unknownSensCountsMethod
    match VE with
    | .error e => (.error e, [])
    | .ok V =>
      -- T = X in both rows (X incorporates n); uninformative 1x1 prior
      let T : Mat := [[X], [X]]
      let M_inv : Mat := [[0]]
      let G : Mat := [[1], [1]]
      let P : Mat := [[X]]
      match calc_m_plus_w P M_inv D V T G false with
      | (.error e, _) => (.error e, [])
      | (.ok (P_prime, M_prime), _) =>
        (.ok (P_prime, M_prime), if verbose then print_parameters P_prime M_prime else [])

/-- `sammy.methods.method2a`: `method2` with `sens_method='theo'`. -/
def method2a (np_sqrt : ℚ → ℚ) (r dr : List ℚ) (n dn : ℚ)
    (verbose : Bool := method2_default_verbose) :
    Except Err (Mat × Mat) × List Ev :=
  method2 np_sqrt r dr n dn verbose theo_str exp_str

/-- `sammy.methods.method2b`: `method2` with `sens_method='theo'` and
`counts_method='theo'`. -/
def method2b (np_sqrt : ℚ → ℚ) (r dr : List ℚ) (n dn : ℚ)
    (verbose : Bool := method2_default_verbose) :
    Except Err (Mat × Mat) × List Ev :=
  method2 np_sqrt r dr n dn verbose theo_str theo_str

/-- Modelled from the spec: the prior claimed by C4 for Method 2 — the GLS
estimate of the normalized data `D = r/n` computed with the Method-2
covariance (diagonal `dr_i²/n² + (dn²/n²)·D_i²`, off-diagonal
`(dn²/n²)·D_0·D_1`).  Used only to compare the claimed dataflow with the
source's; the source instead takes the prior from `method1`. -/
def method2_claimed_prior (np_sqrt : ℚ → ℚ) (r dr : List ℚ) (n dn : ℚ) :
    Except Err (Mat × Mat) × List Ev :=
  let D : Mat := [[r.getD 0 0 / n], [r.getD 1 0 / n]]
  let dr_sq : List ℚ := dr.map (fun x => x ^ 2)
  let n_rel : ℚ := dn ^ 2 / n ^ 2
  let V : Mat :=
    [[dr_sq.getD 0 0 / n ^ 2 + n_rel * idx D 0 0 ^ 2, n_rel * idx D 0 0 * idx D 1 0],
     [n_rel * idx D 0 0 * idx D 1 0, dr_sq.getD 1 0 / n ^ 2 + n_rel * idx D 1 0 ^ 2]]
  get_gls_estimate np_sqrt D V none false

/-! ## Evaluation lemmas for the numpy model on small shapes -/

theorem np_ones_21 : np_ones 2 1 = [[1], [1]] := by
  simp [np_ones, List.replicate]

theorem np_diag_two (a b : ℚ) : np_diag [a, b] = [[a, 0], [0, b]] := by
  simp [np_diag, List.range_succ]

theorem transpose_two_one (a b : ℚ) : transpose [[a], [b]] = [[a, b]] := by
  simp [transpose, nCols, List.range_succ]

theorem transpose_two_two (a b c d : ℚ) :
    transpose [[a, b], [c, d]] = [[a, c], [b, d]] := by
  simp [transpose, nCols, List.range_succ]

theorem transpose_one_two (a b : ℚ) : transpose [[a, b]] = [[a], [b]] := by
  simp [transpose, nCols, List.range_succ]

theorem transpose_one_one (a : ℚ) : transpose [[a]] = [[a]] := by
  simp [transpose, nCols, List.range_succ]

theorem mmul_12_22 (a b p q u v : ℚ) :
    mmul [[a, b]] [[p, q], [u, v]] = .ok [[a * p + b * u, a * q + b * v]] := by
  simp [mmul, rectb, nCols, transpose, dot, List.range_succ]

theorem mmul_12_21 (a b p q : ℚ) :
    mmul [[a, b]] [[p], [q]] = .ok [[a * p + b * q]] := by
  simp [mmul, rectb, nCols, transpose, dot, List.range_succ]

theorem mmul_11_12 (a p q : ℚ) :
    mmul [[a]] [[p, q]] = .ok [[a * p, a * q]] := by
  simp [mmul, rectb, nCols, transpose, dot, List.range_succ]

theorem mmul_11_11 (a p : ℚ) : mmul [[a]] [[p]] = .ok [[a * p]] := by
  simp [mmul, rectb, nCols, transpose, dot, List.range_succ]

theorem mmul_22_22 (a b c d p q u v : ℚ) :
    mmul [[a, b], [c, d]] [[p, q], [u, v]] =
      .ok [[a * p + b * u, a * q + b * v], [c * p + d * u, c * q + d * v]] := by
  simp [mmul, rectb, nCols, transpose, dot, List.range_succ]

theorem mmul_22_21 (a b c d p q : ℚ) :
    mmul [[a, b], [c, d]] [[p], [q]] = .ok [[a * p + b * q], [c * p + d * q]] := by
  simp [mmul, rectb, nCols, transpose, dot, List.range_succ]

theorem madd_11 (a p : ℚ) : madd [[a]] [[p]] = .ok [[a + p]] := by
  simp [madd, rectb, nCols]

theorem madd_21 (a b p q : ℚ) :
    madd [[a], [b]] [[p], [q]] = .ok [[a + p], [b + q]] := by
  simp [madd, rectb, nCols]

theorem madd_22 (a b c d p q u v : ℚ) :
    madd [[a, b], [c, d]] [[p, q], [u, v]] =
      .ok [[a + p, b + q], [c + u, d + v]] := by
  simp [madd, rectb, nCols]

theorem msub_21 (a b p q : ℚ) :
    msub [[a], [b]] [[p], [q]] = .ok [[a - p], [b - q]] := by
  simp [msub, rectb, nCols]

theorem detN_one (a : ℚ) : detN 1 [[a]] = a := by
  simp [detN, List.range_succ]

theorem detN_two (a b c d : ℚ) : detN 2 [[a, b], [c, d]] = a * d - b * c := by
  simp [detN, List.range_succ]
  ring

theorem la_inv_1x1 (a : ℚ) (h : a ≠ 0) : la_inv [[a]] = .ok [[a⁻¹]] := by
  simp [la_inv, rectb, nCols, h, adjL, List.range_succ, detN]

theorem la_inv_2x2 (a b c d : ℚ) (h : a * d - b * c ≠ 0) :
    la_inv [[a, b], [c, d]] =
      .ok [[(a * d - b * c)⁻¹ * d, (a * d - b * c)⁻¹ * (-b)],
           [(a * d - b * c)⁻¹ * (-c), (a * d - b * c)⁻¹ * a]] := by
  simp [la_inv, rectb, nCols, detN_two, adjL, List.range_succ, detN]
  rw [show a * d + -(b * c) = a * d - b * c by ring, if_neg h]

theorem la_inv_diag2 (a b : ℚ) (ha : a ≠ 0) (hb : b ≠ 0) :
    la_inv [[a, 0], [0, b]] = .ok [[a⁻¹, 0], [0, b⁻¹]] := by
  have hd : a * b - 0 * 0 ≠ 0 := by simpa using mul_ne_zero ha hb
  have h1 : (a * b - 0 * 0)⁻¹ * b = a⁻¹ := by
    rw [show a * b - 0 * 0 = a * b by ring, mul_inv, mul_assoc,
      inv_mul_cancel₀ hb, mul_one]
  have h2 : (a * b - 0 * 0)⁻¹ * a = b⁻¹ := by
    rw [show a * b - 0 * 0 = a * b by ring, mul_inv, mul_comm a⁻¹ b⁻¹,
      mul_assoc, inv_mul_cancel₀ ha, mul_one]
  rw [la_inv_2x2 a 0 0 b hd, h1, h2]
  norm_num

theorem la_inv_2x2_singular (a b c d : ℚ) (h : a * d - b * c = 0) :
    la_inv [[a, b], [c, d]] = .error .singular := by
  simp [la_inv, rectb, nCols, detN_two]
  exact h

/-! ## Provenance of errors: the model's operators fail only with the
linear-algebra provider's native failures, never with a validator error. -/

theorem la_inv_error_cases (A : Mat) (e : Err) (h : la_inv A = .error e) :
    e = .singular ∨ e = .dimMismatch := by
  simp only [la_inv] at h
  split at h
  · split at h
    · exact Or.inl (Except.error.inj h).symm
    · simp at h
  · exact Or.inr (Except.error.inj h).symm

theorem mmul_error_cases (A B : Mat) (e : Err) (h : mmul A B = .error e) :
    e = .dimMismatch := by
  unfold mmul at h
  split at h
  · simp at h
  · exact (Except.error.inj h).symm

theorem madd_error_cases (A B : Mat) (e : Err) (h : madd A B = .error e) :
    e = .dimMismatch := by
  unfold madd at h
  split at h
  · simp at h
  · exact (Except.error.inj h).symm

theorem msub_error_cases (A B : Mat) (e : Err) (h : msub A B = .error e) :
    e = .dimMismatch := by
  unfold msub at h
  split at h
  · simp at h
  · exact (Except.error.inj h).symm

/-! ## Evaluation under success hypotheses -/

theorem calc_m_plus_w_ok (P M_inv D V T G Vi GtVi DT Y W MW Mp MY Pp : Mat)
    (v : Bool)
    (hVi : la_inv V = .ok Vi) (hGt : mmul (transpose G) Vi = .ok GtVi)
    (hDT : msub D T = .ok DT) (hY : mmul GtVi DT = .ok Y)
    (hW : mmul GtVi G = .ok W) (hMW : madd M_inv W = .ok MW)
    (hM : la_inv MW = .ok Mp) (hMY : mmul Mp Y = .ok MY)
    (hP : madd P MY = .ok Pp) :
    (calc_m_plus_w P M_inv D V T G v).fst = .ok (Pp, Mp) := by
  unfold calc_m_plus_w
  simp only [hVi, hGt, hDT, hY, hW, hMW, hM, hMY, hP]

theorem get_gls_unc_ok (np_sqrt : ℚ → ℚ) (V X Vi XtVi XtViX S : Mat)
    (hr : rectb V = true) (hne : V ≠ []) (hsq : V.length = nCols V)
    (hX : X.length = V.length)
    (hVi : la_inv V = .ok Vi) (h2 : mmul (transpose X) Vi = .ok XtVi)
    (h3 : mmul XtVi X = .ok XtViX) (h4 : la_inv XtViX = .ok S) :
    get_gls_unc np_sqrt V (some X) = .ok (S.map (fun row => row.map np_sqrt)) := by
  unfold get_gls_unc
  simp only [Option.getD_some]
  rw [if_neg (by simp [hr, hne]), if_neg (by simp [hsq]), if_neg (by simp [hX])]
  simp only [hVi, h2, h3, h4, Except.bind, bind, pure, Except.pure]

theorem get_gls_estimate_ok (np_sqrt : ℚ → ℚ)
    (Y V X unc Vi XtVi XtViX const cXt cXtVi est : Mat) (v : Bool)
    (h0 : get_gls_unc np_sqrt V (some X) = .ok unc)
    (hY1 : nCols Y = 1) (hY2 : Y.length = V.length)
    (hVi : la_inv V = .ok Vi) (h2 : mmul (transpose X) Vi = .ok XtVi)
    (h3 : mmul XtVi X = .ok XtViX) (h4 : la_inv XtViX = .ok const)
    (h5 : mmul const (transpose X) = .ok cXt)
    (h6 : mmul cXt Vi = .ok cXtVi)
    (h7 : mmul cXtVi Y = .ok est) :
    (get_gls_estimate np_sqrt Y V (some X) v).fst = .ok (est, unc) := by
  unfold get_gls_estimate
  simp only [Option.getD_some, h0]
  rw [if_neg (by simp [hY1]), if_neg (by simp [hY2])]
  simp only [hVi, h2, h3, h4, h5, h6, h7]

/-! ## The omitted design matrix defaults to the column of ones -/

theorem get_gls_unc_default_X (np_sqrt : ℚ → ℚ) (V : Mat) :
    get_gls_unc np_sqrt V none =
      get_gls_unc np_sqrt V (some (np_ones V.length 1)) := rfl

theorem get_gls_estimate_default_X (np_sqrt : ℚ → ℚ) (Y V : Mat) (v : Bool) :
    get_gls_estimate np_sqrt Y V none v =
      get_gls_estimate np_sqrt Y V (some (np_ones V.length 1)) v := rfl

/-! ## Zero columns and shapes (for the zero-information update) -/

theorem zeroMat_col (m : Nat) : zeroMat m 1 = List.replicate m [0] := rfl

theorem dot_replicate_zero (u : List ℚ) (k : Nat) :
    dot u (List.replicate k 0) = 0 := by
  induction u generalizing k with
  | nil => simp [dot]
  | cons a u ih =>
    cases k with
    | zero => simp [dot]
    | succ k => simpa [dot, List.replicate_succ] using ih k

theorem transpose_length (B : Mat) : (transpose B).length = nCols B := by
  simp [transpose]

theorem transpose_zeroMat_col (m : Nat) (hm : 0 < m) :
    transpose (zeroMat m 1) = [List.replicate m 0] := by
  cases m with
  | zero => exact absurd hm (by simp)
  | succ k =>
    simp [transpose, zeroMat, nCols, List.replicate_succ, List.range_succ,
      List.map_replicate]

theorem rectb_rows (A : Mat) (hr : rectb A = true) :
    ∀ row ∈ A, row.length = nCols A := by
  intro row hrow
  have := List.all_eq_true.mp hr row hrow
  simpa using this

theorem rectb_zeroMat (m k : Nat) : rectb (zeroMat m k) = true := by
  simp only [rectb, zeroMat, List.all_eq_true]
  intro row hrow
  rcases List.eq_of_mem_replicate hrow with rfl
  cases m with
  | zero => exact absurd hrow (by simp)
  | succ j => simp [nCols, List.replicate_succ]

theorem nCols_zeroMat (m k : Nat) (hm : 0 < m) : nCols (zeroMat m k) = k := by
  cases m with
  | zero => exact absurd hm (by simp)
  | succ j => simp [zeroMat, nCols, List.replicate_succ]

theorem mmul_zeroMat (A : Mat) (m : Nat) (hm : 0 < m) (hr : rectb A = true)
    (hc : nCols A = m) : mmul A (zeroMat m 1) = .ok (zeroMat A.length 1) := by
  unfold mmul
  rw [if_pos ⟨hr, rectb_zeroMat m 1, by simp [hc, zeroMat]⟩]
  rw [transpose_zeroMat_col m hm]
  simp [dot_replicate_zero, zeroMat_col, List.map_const']

theorem zip_add_zero (P : Mat) (h : ∀ row ∈ P, row.length = 1) :
    List.zipWith (fun u v => List.zipWith (· + ·) u v) P
      (List.replicate P.length [0]) = P := by
  induction P with
  | nil => simp
  | cons row rest ih =>
    have hrow := h row (by simp)
    obtain ⟨x, rfl⟩ : ∃ x, row = [x] := by
      cases row with
      | nil => simp at hrow
      | cons a t =>
        cases t with
        | nil => exact ⟨a, rfl⟩
        | cons b t2 => simp at hrow
    simp [List.replicate_succ, ih (fun r hr => h r (List.mem_cons_of_mem _ hr))]

theorem madd_zero_right (P : Mat) (hr : rectb P = true) (hc : nCols P = 1) :
    madd P (zeroMat P.length 1) = .ok P := by
  have hne : P ≠ [] := by
    intro hP
    rw [hP] at hc
    simp [nCols] at hc
  have hlen : 0 < P.length := List.length_pos.mpr hne
  unfold madd
  rw [if_pos ⟨by simp [zeroMat], by rw [nCols_zeroMat _ _ hlen, hc], hr,
    rectb_zeroMat _ 1⟩]
  rw [zeroMat_col]
  rw [zip_add_zero P (fun row hrow => (rectb_rows P hr row hrow).trans hc)]

theorem msub_self_col (D : Mat) (hr : rectb D = true) (hc : nCols D = 1) :
    msub D D = .ok (zeroMat D.length 1) := by
  unfold msub
  rw [if_pos ⟨rfl, rfl, hr, hr⟩]
  rw [zeroMat_col]
  have h : ∀ row ∈ D, row.length = 1 :=
    fun row hrow => (rectb_rows D hr row hrow).trans hc
  clear hr hc
  induction D with
  | nil => simp
  | cons row rest ih =>
    have hrow := h row (by simp)
    obtain ⟨x, rfl⟩ : ∃ x, row = [x] := by
      cases row with
      | nil => simp at hrow
      | cons a t =>
        cases t with
        | nil => exact ⟨a, rfl⟩
        | cons b t2 => simp at hrow
    have := ih (fun r hr => h r (List.mem_cons_of_mem _ hr))
    simp only [List.length_cons, List.replicate_succ, List.zipWith_cons_cons]
    simp only [Except.ok.injEq] at this ⊢
    rw [this]
    congr 1
    simp

theorem mapRange_shape (m k : Nat) (hm : 0 < m) (g : Nat → List ℚ)
    (hg : ∀ i, (g i).length = k) :
    ((List.range m).map g).length = m ∧ rectb ((List.range m).map g) = true ∧
      nCols ((List.range m).map g) = k := by
  obtain ⟨j, rfl⟩ : ∃ j, m = j + 1 := ⟨m - 1, by omega⟩
  refine ⟨by simp, ?_, ?_⟩
  · simp only [rectb, List.all_eq_true]
    intro row hrow
    rcases List.mem_map.mp hrow with ⟨i, hi, rfl⟩
    simp [nCols, List.range_succ_eq_map, hg]
  · simp [nCols, List.range_succ_eq_map, hg]

theorem la_inv_ok_shape (A B : Mat) (h : la_inv A = .ok B) :
    B.length = A.length ∧ rectb B = true ∧ nCols B = A.length := by
  simp only [la_inv] at h
  split at h
  case isTrue hcond =>
    split at h
    · simp at h
    · have hB := (Except.ok.inj h).symm
      subst hB
      have hA0 : 0 < A.length := List.length_pos.mpr hcond.2.2
      have hmr := mapRange_shape A.length A.length hA0
        (fun i => ((List.range A.length).map (fun j =>
          (-1 : ℚ) ^ (i + j) * detN (A.length - 1)
            ((A.eraseIdx j).map (fun row => row.eraseIdx i)))).map
          (fun x => (detN A.length A)⁻¹ * x))
        (fun i => by simp)
      simp only [adjL, List.map_map, Function.comp_def] at hmr ⊢
      exact ⟨hmr.1, hmr.2.1, hmr.2.2⟩
  case isFalse => simp at h

theorem mmul_ok_shape (A B C : Mat) (h : mmul A B = .ok C) :
    C.length = A.length ∧ rectb C = true := by
  unfold mmul at h
  split at h
  case isTrue hcond =>
    have hC := (Except.ok.inj h).symm
    subst hC
    refine ⟨by simp, ?_⟩
    simp only [rectb, List.all_eq_true]
    intro row hrow
    rcases List.mem_map.mp hrow with ⟨r, hrA, rfl⟩
    cases A with
    | nil => exact absurd hrA (by simp)
    | cons r0 rest => simp [nCols]
  case isFalse => simp at h

theorem madd_ok_facts (A B C : Mat) (h : madd A B = .ok C) :
    A.length = B.length ∧ C.length = A.length := by
  unfold madd at h
  split at h
  case isTrue hcond =>
    have hC := (Except.ok.inj h).symm
    subst hC
    exact ⟨hcond.1, by simp [hcond.1]⟩
  case isFalse => simp at h

/-! ## The returned value never depends on the verbose flag -/

theorem calc_m_plus_w_fst_verbose (P M_inv D V T G : Mat) (v : Bool) :
    (calc_m_plus_w P M_inv D V T G v).fst =
      (calc_m_plus_w P M_inv D V T G false).fst := by
  unfold calc_m_plus_w
  repeat' split <;> try rfl

theorem get_gls_estimate_fst_verbose (np_sqrt : ℚ → ℚ) (Y V : Mat)
    (Xopt : Option Mat) (v : Bool) :
    (get_gls_estimate np_sqrt Y V Xopt v).fst =
      (get_gls_estimate np_sqrt Y V Xopt false).fst := by
  unfold get_gls_estimate
  repeat' first
  | rfl
  | (split <;> try rfl)
  | dsimp only

theorem check_2x2_fst_verbose (np_sqrt : ℚ → ℚ) (V : Mat) (v : Bool) :
    (check_2x2_matrix_for_PPP np_sqrt V v).fst =
      (check_2x2_matrix_for_PPP np_sqrt V false).fst := by
  unfold check_2x2_matrix_for_PPP
  repeat' split <;> try rfl

theorem method1_fst_verbose (np_sqrt : ℚ → ℚ) (r dr : List ℚ) (n dn : ℚ)
    (v : Bool) :
    (method1 np_sqrt r dr n dn v).fst = (method1 np_sqrt r dr n dn false).fst := by
  unfold method1
  repeat' first
  | rfl
  | (split <;> try rfl)
  | dsimp only

theorem method2_fst_verbose (np_sqrt : ℚ → ℚ) (r dr : List ℚ) (n dn : ℚ)
    (v : Bool) (s c : String) :
    (method2 np_sqrt r dr n dn v s c).fst =
      (method2 np_sqrt r dr n dn false s c).fst := by
  unfold method2
  repeat' first
  | rfl
  | (split <;> try rfl)
  | dsimp only

theorem method2a_fst_verbose (np_sqrt : ℚ → ℚ) (r dr : List ℚ) (n dn : ℚ)
    (v : Bool) :
    (method2a np_sqrt r dr n dn v).fst = (method2a np_sqrt r dr n dn false).fst := by
  unfold method2a
  exact method2_fst_verbose np_sqrt r dr n dn v theo_str exp_str

theorem method2b_fst_verbose (np_sqrt : ℚ → ℚ) (r dr : List ℚ) (n dn : ℚ)
    (v : Bool) :
    (method2b np_sqrt r dr n dn v).fst = (method2b np_sqrt r dr n dn false).fst := by
  unfold method2b
  exact method2_fst_verbose np_sqrt r dr n dn v theo_str theo_str

theorem msub_11 (a p : ℚ) : msub [[a]] [[p]] = .ok [[a - p]] := by
  simp [msub, rectb, nCols]

theorem calc_m_plus_w_err_not_shape (P M_inv D V T G : Mat) (v : Bool) (e : Err)
    (h : (calc_m_plus_w P M_inv D V T G v).fst = .error e) :
    isShapeErr e = false := by
  unfold calc_m_plus_w at h
  cases h1 : la_inv V with
  | error e1 =>
    simp only [h1] at h
    simp at h
    subst h
    rcases la_inv_error_cases V _ h1 with rfl | rfl <;> rfl
  | ok Vi =>
  simp only [h1] at h
  cases h2 : mmul (transpose G) Vi with
  | error e1 =>
    simp only [h2] at h
    simp at h
    subst h
    rw [mmul_error_cases _ _ _ h2]
    rfl
  | ok GtVi =>
  simp only [h2] at h
  cases h3 : msub D T with
  | error e1 =>
    simp only [h3] at h
    simp at h
    subst h
    rw [msub_error_cases _ _ _ h3]
    rfl
  | ok DT =>
  simp only [h3] at h
  cases h4 : mmul GtVi DT with
  | error e1 =>
    simp only [h4] at h
    simp at h
    subst h
    rw [mmul_error_cases _ _ _ h4]
    rfl
  | ok Y =>
  simp only [h4] at h
  cases h5 : mmul GtVi G with
  | error e1 =>
    simp only [h5] at h
    simp at h
    subst h
    rw [mmul_error_cases _ _ _ h5]
    rfl
  | ok W =>
  simp only [h5] at h
  cases h6 : madd M_inv W with
  | error e1 =>
    simp only [h6] at h
    simp at h
    subst h
    rw [madd_error_cases _ _ _ h6]
    rfl
  | ok MW =>
  simp only [h6] at h
  cases h7 : la_inv MW with
  | error e1 =>
    simp only [h7] at h
    simp at h
    subst h
    rcases la_inv_error_cases MW _ h7 with rfl | rfl <;> rfl
  | ok Mp =>
  simp only [h7] at h
  cases h8 : mmul Mp Y with
  | error e1 =>
    simp only [h8] at h
    simp at h
    subst h
    rw [mmul_error_cases _ _ _ h8]
    rfl
  | ok MY =>
  simp only [h8] at h
  cases h9 : madd P MY with
  | error e1 =>
    simp only [h9] at h
    simp at h
    subst h
    rw [madd_error_cases _ _ _ h9]
    rfl
  | ok Pp =>
  simp only [h9] at h
  simp at h

/-- C1: for conforming inputs with invertible `V` and invertible `M_inv + W`,
`calc_m_plus_w(P, M_inv, D, V, T, G)` returns exactly the pair
`(P + M'·Y, M')` with `Y = Gᵀ V⁻¹ (D − T)`, `W = Gᵀ V⁻¹ G` and
`M' = (M_inv + W)⁻¹`; and it performs no shape validation of its own — any
failure it returns is a propagated provider failure, never a validator
`ShapeError`. -/
theorem c1_calc_m_plus_w_contract :
    (∀ (P M_inv D V T G Vi GtVi DT Y W MW Mp MY Pp : Mat) (v : Bool),
      la_inv V = .ok Vi → mmul (transpose G) Vi = .ok GtVi →
      msub D T = .ok DT → mmul GtVi DT = .ok Y →
      mmul GtVi G = .ok W → madd M_inv W = .ok MW →
      la_inv MW = .ok Mp → mmul Mp Y = .ok MY → madd P MY = .ok Pp →
      (calc_m_plus_w P M_inv D V T G v).fst = .ok (Pp, Mp)) ∧
    (∀ (P M_inv D V T G : Mat) (v : Bool) (e : Err),
      (calc_m_plus_w P M_inv D V T G v).fst = .error e → isShapeErr e = false) := by
  constructor
  · intro P M_inv D V T G Vi GtVi DT Y W MW Mp MY Pp v hVi hGt hDT hY hW hMW hM hMY hP
    exact calc_m_plus_w_ok P M_inv D V T G Vi GtVi DT Y W MW Mp MY Pp v
      hVi hGt hDT hY hW hMW hM hMY hP
  · exact calc_m_plus_w_err_not_shape

theorem c1_witness :
    (calc_m_plus_w [[0]] [[1]] [[1]] [[1]] [[0]] [[1]] false).fst =
      .ok ([[(1 : ℚ)/2]], [[(1 : ℚ)/2]]) := by
  refine c1_calc_m_plus_w_contract.1 [[0]] [[1]] [[1]] [[1]] [[0]] [[1]]
    [[1]] [[1]] [[1]] [[1]] [[1]] [[2]] [[(1 : ℚ)/2]] [[(1 : ℚ)/2]] [[(1 : ℚ)/2]] false
    ?_ ?_ ?_ ?_ ?_ ?_ ?_ ?_ ?_
  · rw [la_inv_1x1 1 one_ne_zero]
    norm_num
  · rw [transpose_one_one, mmul_11_11]
    norm_num
  · rw [msub_11]
    norm_num
  · rw [mmul_11_11]
    norm_num
  · rw [mmul_11_11]
    norm_num
  · rw [madd_11]
    norm_num
  · rw [la_inv_1x1 2 two_ne_zero]
    norm_num
  · rw [mmul_11_11]
    norm_num
  · rw [madd_11]
    norm_num

/-- C2: for a rectangular square covariance `V` with invertible `V` and
invertible information matrix `Xᵀ V⁻¹ X`, `get_gls_unc(V, X)` returns the
element-wise square root of the FULL inverted information matrix
`(Xᵀ V⁻¹ X)⁻¹` (not just its diagonal); and when `X` is omitted the call is
literally the call with the `len(V) × 1` column of ones. -/
theorem c2_get_gls_unc_contract :
    (∀ (np_sqrt : ℚ → ℚ) (V X Vi XtVi XtViX S : Mat),
      rectb V = true → V ≠ [] → V.length = nCols V → X.length = V.length →
      la_inv V = .ok Vi → mmul (transpose X) Vi = .ok XtVi →
      mmul XtVi X = .ok XtViX → la_inv XtViX = .ok S →
      get_gls_unc np_sqrt V (some X) =
        .ok (S.map (fun row => row.map np_sqrt))) ∧
    (∀ (np_sqrt : ℚ → ℚ) (V : Mat),
      get_gls_unc np_sqrt V none =
        get_gls_unc np_sqrt V (some (np_ones V.length 1))) :=
  ⟨fun np_sqrt V X Vi XtVi XtViX S hr hne hsq hX hVi h2 h3 h4 =>
    get_gls_unc_ok np_sqrt V X Vi XtVi XtViX S hr hne hsq hX hVi h2 h3 h4,
   get_gls_unc_default_X⟩

theorem c2_witness :
    get_gls_unc (fun q => q) [[4]] (some [[2]]) = .ok [[1]] := by
  have h := c2_get_gls_unc_contract.1 (fun q => q) [[4]] [[2]]
    [[(4 : ℚ)⁻¹]] [[(1 : ℚ)/2]] [[1]] [[1]]
    (by rfl) (by simp) (by rfl) (by rfl)
    (la_inv_1x1 4 (by norm_num))
    (by rw [transpose_one_one, mmul_11_11]; norm_num)
    (by rw [mmul_11_11]; norm_num)
    (by rw [la_inv_1x1 1 one_ne_zero]; norm_num)
  simpa using h

theorem get_gls_estimate_notColumn (np_sqrt : ℚ → ℚ) (Y V X unc : Mat) (v : Bool)
    (h0 : get_gls_unc np_sqrt V (some X) = .ok unc) (hY : nCols Y ≠ 1) :
    (get_gls_estimate np_sqrt Y V (some X) v).fst = .error .dataNotColumn := by
  unfold get_gls_estimate
  simp only [Option.getD_some, h0]
  rw [if_pos hY]

theorem get_gls_estimate_rowMismatch (np_sqrt : ℚ → ℚ) (Y V X unc : Mat) (v : Bool)
    (h0 : get_gls_unc np_sqrt V (some X) = .ok unc)
    (hY1 : nCols Y = 1) (hY2 : Y.length ≠ V.length) :
    (get_gls_estimate np_sqrt Y V (some X) v).fst = .error .dataRowMismatch := by
  unfold get_gls_estimate
  simp only [Option.getD_some, h0]
  rw [if_neg (by simp [hY1]), if_pos hY2]

/-- C3: `get_gls_estimate(Y, V, X)` returns the pair `(P̂, Σ)` with
`P̂ = (Xᵀ V⁻¹ X)⁻¹ Xᵀ V⁻¹ Y` (products exactly as the source forms them) and
`Σ` the value of `get_gls_unc(V, X)`; an omitted `X` is literally the ones
column; a `Y` that is not a single column fails with the not-a-column
`ShapeError`, and a `Y` whose row count differs from `V`'s fails with the
row-mismatch `ShapeError`. -/
theorem c3_get_gls_estimate_contract :
    (∀ (np_sqrt : ℚ → ℚ) (Y V X unc Vi XtVi XtViX const cXt cXtVi est : Mat)
      (v : Bool),
      get_gls_unc np_sqrt V (some X) = .ok unc →
      nCols Y = 1 → Y.length = V.length →
      la_inv V = .ok Vi → mmul (transpose X) Vi = .ok XtVi →
      mmul XtVi X = .ok XtViX → la_inv XtViX = .ok const →
      mmul const (transpose X) = .ok cXt → mmul cXt Vi = .ok cXtVi →
      mmul cXtVi Y = .ok est →
      (get_gls_estimate np_sqrt Y V (some X) v).fst = .ok (est, unc)) ∧
    (∀ (np_sqrt : ℚ → ℚ) (Y V : Mat) (v : Bool),
      get_gls_estimate np_sqrt Y V none v =
        get_gls_estimate np_sqrt Y V (some (np_ones V.length 1)) v) ∧
    (∀ (np_sqrt : ℚ → ℚ) (Y V X unc : Mat) (v : Bool),
      get_gls_unc np_sqrt V (some X) = .ok unc → nCols Y ≠ 1 →
      (get_gls_estimate np_sqrt Y V (some X) v).fst = .error .dataNotColumn) ∧
    (∀ (np_sqrt : ℚ → ℚ) (Y V X unc : Mat) (v : Bool),
      get_gls_unc np_sqrt V (some X) = .ok unc → nCols Y = 1 →
      Y.length ≠ V.length →
      (get_gls_estimate np_sqrt Y V (some X) v).fst = .error .dataRowMismatch) ∧
    isShapeErr .dataNotColumn = true ∧ isShapeErr .dataRowMismatch = true := by
  refine ⟨?_, get_gls_estimate_default_X, ?_, ?_, rfl, rfl⟩
  · intro np_sqrt Y V X unc Vi XtVi XtViX const cXt cXtVi est v
      h0 hY1 hY2 hVi h2 h3 h4 h5 h6 h7
    exact get_gls_estimate_ok np_sqrt Y V X unc Vi XtVi XtViX const cXt cXtVi est v
      h0 hY1 hY2 hVi h2 h3 h4 h5 h6 h7
  · intro np_sqrt Y V X unc v h0 hY
    exact get_gls_estimate_notColumn np_sqrt Y V X unc v h0 hY
  · intro np_sqrt Y V X unc v h0 hY1 hY2
    exact get_gls_estimate_rowMismatch np_sqrt Y V X unc v h0 hY1 hY2

theorem c3_witness :
    (get_gls_estimate (fun q => q) [[3]] [[4]] (some [[2]]) false).fst =
      .ok ([[(3 : ℚ)/2]], [[1]]) := by
  refine c3_get_gls_estimate_contract.1 (fun q => q) [[3]] [[4]] [[2]]
    [[1]] [[(4 : ℚ)⁻¹]] [[(1 : ℚ)/2]] [[1]] [[1]] [[2]] [[(1 : ℚ)/2]] [[(3 : ℚ)/2]] false
    ?_ (by rfl) (by rfl) (la_inv_1x1 4 (by norm_num)) ?_ ?_ ?_ ?_ ?_ ?_
  · have h := get_gls_unc_ok (fun q => q) [[4]] [[2]]
      [[(4 : ℚ)⁻¹]] [[(1 : ℚ)/2]] [[1]] [[1]]
      (by rfl) (by simp) (by rfl) (by rfl)
      (la_inv_1x1 4 (by norm_num))
      (by rw [transpose_one_one, mmul_11_11]; norm_num)
      (by rw [mmul_11_11]; norm_num)
      (by rw [la_inv_1x1 1 one_ne_zero]; norm_num)
    simpa using h
  · rw [transpose_one_one, mmul_11_11]
    norm_num
  · rw [mmul_11_11]
    norm_num
  · rw [la_inv_1x1 1 one_ne_zero]
    norm_num
  · rw [transpose_one_one, mmul_11_11]
    norm_num
  · rw [mmul_11_11]
    norm_num
  · rw [mmul_11_11]
    norm_num

/-- C9 (amended): the operations that take a `verbose` flag — calc_m_plus_w,
get_gls_estimate, check_2x2_matrix_for_PPP, method1, method2, method2a,
method2b — return a value that is identical whether verbose is true or false
(tracing is pure output); the flag defaults to false everywhere EXCEPT
check_2x2_matrix_for_PPP, whose default is true (and get_gls_unc takes no
verbose flag at all, as its embedding's signature records). -/
theorem c9_verbose_purity :
    (∀ (P M_inv D V T G : Mat) (v : Bool),
      (calc_m_plus_w P M_inv D V T G v).fst =
        (calc_m_plus_w P M_inv D V T G false).fst) ∧
    (∀ (np_sqrt : ℚ → ℚ) (Y V : Mat) (Xopt : Option Mat) (v : Bool),
      (get_gls_estimate np_sqrt Y V Xopt v).fst =
        (get_gls_estimate np_sqrt Y V Xopt false).fst) ∧
    (∀ (np_sqrt : ℚ → ℚ) (V : Mat) (v : Bool),
      (check_2x2_matrix_for_PPP np_sqrt V v).fst =
        (check_2x2_matrix_for_PPP np_sqrt V false).fst) ∧
    (∀ (np_sqrt : ℚ → ℚ) (r dr : List ℚ) (n dn : ℚ) (v : Bool),
      (method1 np_sqrt r dr n dn v).fst = (method1 np_sqrt r dr n dn false).fst) ∧
    (∀ (np_sqrt : ℚ → ℚ) (r dr : List ℚ) (n dn : ℚ) (v : Bool) (s c : String),
      (method2 np_sqrt r dr n dn v s c).fst =
        (method2 np_sqrt r dr n dn false s c).fst) ∧
    (∀ (np_sqrt : ℚ → ℚ) (r dr : List ℚ) (n dn : ℚ) (v : Bool),
      (method2a np_sqrt r dr n dn v).fst = (method2a np_sqrt r dr n dn false).fst) ∧
    (∀ (np_sqrt : ℚ → ℚ) (r dr : List ℚ) (n dn : ℚ) (v : Bool),
      (method2b np_sqrt r dr n dn v).fst = (method2b np_sqrt r dr n dn false).fst) ∧
    calc_m_plus_w_default_verbose = false ∧
    get_gls_estimate_default_verbose = false ∧
    method1_default_verbose = false ∧
    method2_default_verbose = false ∧
    check_2x2_matrix_for_PPP_default_verbose = true :=
  ⟨calc_m_plus_w_fst_verbose, get_gls_estimate_fst_verbose, check_2x2_fst_verbose,
   method1_fst_verbose, method2_fst_verbose, method2a_fst_verbose,
   method2b_fst_verbose, rfl, rfl, rfl, rfl, rfl⟩

theorem c9_counterexample : ¬ check_2x2_matrix_for_PPP_default_verbose = false := by
  decide

/-- C5: for an exactly-2x2 covariance with positive diagonal, the PPP check
returns exactly the boolean of `rho > ratio`, where `sigma1`, `sigma2` are the
square roots of the diagonal, `rho = V[0,1]/(sigma1*sigma2)` and `ratio` is
the smaller-to-larger uncertainty ratio; a tie (`rho = ratio`) yields `false`;
any input that is not exactly 2x2 yields the non-fatal sentinel `none` (the
function's type carries no exception at all). -/
theorem c5_ppp_detector :
    (∀ (np_sqrt : ℚ → ℚ) (V : Mat) (v : Bool),
      rectb V = true → V.length = 2 → nCols V = 2 →
      0 < idx V 0 0 → 0 < idx V 1 1 →
      (check_2x2_matrix_for_PPP np_sqrt V v).fst =
        some (decide (idx V 0 1 / np_sqrt (idx V 0 0) / np_sqrt (idx V 1 1) >
          min (np_sqrt (idx V 0 0) / np_sqrt (idx V 1 1))
            (np_sqrt (idx V 1 1) / np_sqrt (idx V 0 0))))) ∧
    (∀ (np_sqrt : ℚ → ℚ) (V : Mat) (v : Bool),
      rectb V = true → V.length = 2 → nCols V = 2 →
      idx V 0 1 / np_sqrt (idx V 0 0) / np_sqrt (idx V 1 1) =
        min (np_sqrt (idx V 0 0) / np_sqrt (idx V 1 1))
          (np_sqrt (idx V 1 1) / np_sqrt (idx V 0 0)) →
      (check_2x2_matrix_for_PPP np_sqrt V v).fst = some false) ∧
    (∀ (np_sqrt : ℚ → ℚ) (V : Mat) (v : Bool),
      ¬ (rectb V = true ∧ V.length = 2 ∧ nCols V = 2) →
      (check_2x2_matrix_for_PPP np_sqrt V v).fst = none) := by
  refine ⟨?_, ?_, ?_⟩
  · intro np_sqrt V v hr h2 hc _ _
    unfold check_2x2_matrix_for_PPP
    rw [if_neg (by simp [hr, h2, hc])]
  · intro np_sqrt V v hr h2 hc htie
    unfold check_2x2_matrix_for_PPP
    rw [if_neg (by simp [hr, h2, hc])]
    simp only [htie]
    simp [lt_self_iff_false]
  · intro np_sqrt V v hbad
    unfold check_2x2_matrix_for_PPP
    rw [if_pos hbad]

theorem c5_witness :
    (check_2x2_matrix_for_PPP (fun q => q) [[1, 0], [0, 1]] false).fst =
      some false := by
  have h := c5_ppp_detector.1 (fun q => q) [[1, 0], [0, 1]] false
    (by rfl) (by rfl) (by rfl) (by norm_num [idx]) (by norm_num [idx])
  rw [h]
  simp only [Option.some.injEq, decide_eq_false_iff_not]
  norm_num [idx]

theorem get_gls_unc_notSquare (np_sqrt : ℚ → ℚ) (V : Mat) (Xopt : Option Mat)
    (hr : rectb V = true) (hne : V ≠ []) (hsq : V.length ≠ nCols V) :
    get_gls_unc np_sqrt V Xopt = .error .notSquare := by
  unfold get_gls_unc
  rw [if_neg (by simp [hr, hne]), if_pos hsq]

theorem get_gls_unc_designMismatch (np_sqrt : ℚ → ℚ) (V X : Mat)
    (hr : rectb V = true) (hne : V ≠ []) (hsq : V.length = nCols V)
    (hX : X.length ≠ V.length) :
    get_gls_unc np_sqrt V (some X) = .error .designRowMismatch := by
  unfold get_gls_unc
  simp only [Option.getD_some]
  rw [if_neg (by simp [hr, hne]), if_neg (by simp [hsq]), if_pos hX]

theorem get_gls_estimate_propagates_unc_error (np_sqrt : ℚ → ℚ) (Y V X : Mat)
    (v : Bool) (e : Err) (h : get_gls_unc np_sqrt V (some X) = .error e) :
    (get_gls_estimate np_sqrt Y V (some X) v).fst = .error e := by
  unfold get_gls_estimate
  simp only [Option.getD_some, h]

/-- C8 (amended): the V and X shape checks of `get_gls_unc` are eager — they
are decided before any inversion, so a non-square `V` or a mismatched design
matrix yields the corresponding `ShapeError` no matter whether `V` is
invertible; but `get_gls_estimate` runs the entire uncertainty computation
(including the inversion of `V`) BEFORE validating `Y`, so any failure there —
shape or singular-matrix — preempts the data-vector `ShapeError`s, which are
only raised afterwards. -/
theorem c8_shape_error_timing :
    (∀ (np_sqrt : ℚ → ℚ) (V : Mat) (Xopt : Option Mat),
      rectb V = true → V ≠ [] → V.length ≠ nCols V →
      get_gls_unc np_sqrt V Xopt = .error .notSquare) ∧
    (∀ (np_sqrt : ℚ → ℚ) (V X : Mat),
      rectb V = true → V ≠ [] → V.length = nCols V → X.length ≠ V.length →
      get_gls_unc np_sqrt V (some X) = .error .designRowMismatch) ∧
    (∀ (np_sqrt : ℚ → ℚ) (Y V X : Mat) (v : Bool) (e : Err),
      get_gls_unc np_sqrt V (some X) = .error e →
      (get_gls_estimate np_sqrt Y V (some X) v).fst = .error e) ∧
    (∀ (np_sqrt : ℚ → ℚ) (Y V X unc : Mat) (v : Bool),
      get_gls_unc np_sqrt V (some X) = .ok unc → nCols Y ≠ 1 →
      (get_gls_estimate np_sqrt Y V (some X) v).fst = .error .dataNotColumn) :=
  ⟨get_gls_unc_notSquare, get_gls_unc_designMismatch,
   get_gls_estimate_propagates_unc_error,
   fun np_sqrt Y V X unc v h0 hY =>
     get_gls_estimate_notColumn np_sqrt Y V X unc v h0 hY⟩

theorem c8_witness :
    get_gls_unc (fun q => q) [[1, 2]] none = .error .notSquare := by
  exact c8_shape_error_timing.1 (fun q => q) [[1, 2]] none (by rfl) (by simp)
    (by simp [nCols])

theorem c8_counterexample :
    (get_gls_estimate (fun q => q) [[1, 0], [0, 1]] [[1, 1], [1, 1]] none
      false).fst = .error .singular ∧ isShapeErr .singular = false := by
  constructor
  · have hunc : get_gls_unc (fun q => q) [[1, 1], [1, 1]]
        (some (np_ones (List.length ([[1, 1], [1, 1]] : Mat)) 1)) =
          .error .singular := by
      unfold get_gls_unc
      simp only [Option.getD_some]
      rw [if_neg (by simp [rectb, nCols]), if_neg (by simp [nCols]),
        if_neg (by simp [np_ones])]
      rw [la_inv_2x2_singular 1 1 1 1 (by norm_num)]
      rfl
    rw [get_gls_estimate_default_X]
    exact get_gls_estimate_propagates_unc_error (fun q => q) [[1, 0], [0, 1]]
      [[1, 1], [1, 1]] (np_ones (List.length ([[1, 1], [1, 1]] : Mat)) 1)
      false .singular hunc
  · rfl

/-- C6: when the data equal the theory exactly (`T = D`), the M+W update
returns the prior parameters unchanged — `P' = P` — for every conforming
prior, sensitivity matrix and invertible covariances, because
`Y = Gᵀ V⁻¹ (D − D) = 0` and `P + M'·0 = P`; only the returned covariance
`M' = (M_inv + W)⁻¹` carries information. -/
theorem c6_zero_information_update
    (P M_inv D V G Vi GtVi W MW Mp : Mat) (v : Bool)
    (hVi : la_inv V = .ok Vi)
    (hGt : mmul (transpose G) Vi = .ok GtVi)
    (hG0 : GtVi ≠ [])
    (hDr : rectb D = true) (hDc : nCols D = 1) (hD0 : D ≠ [])
    (hDG : nCols GtVi = D.length)
    (hW : mmul GtVi G = .ok W)
    (hMW : madd M_inv W = .ok MW)
    (hM : la_inv MW = .ok Mp)
    (hPr : rectb P = true) (hPc : nCols P = 1)
    (hPM : P.length = M_inv.length) :
    (calc_m_plus_w P M_inv D V D G v).fst = .ok (P, Mp) := by
  have hDT : msub D D = .ok (zeroMat D.length 1) := msub_self_col D hDr hDc
  have hGtShape := mmul_ok_shape (transpose G) Vi GtVi hGt
  have hY : mmul GtVi (zeroMat D.length 1) = .ok (zeroMat GtVi.length 1) :=
    mmul_zeroMat GtVi D.length (List.length_pos.mpr hD0) hGtShape.2 hDG
  obtain ⟨hMl, hMr, hMc⟩ := la_inv_ok_shape MW Mp hM
  obtain ⟨hABl, hCl⟩ := madd_ok_facts M_inv W MW hMW
  have hWlen : W.length = GtVi.length := (mmul_ok_shape GtVi G W hW).1
  have hMG : M_inv.length = GtVi.length := hABl.trans hWlen
  have hMplen : Mp.length = P.length := by
    rw [hMl, hCl, ← hPM]
  have hMpc : nCols Mp = GtVi.length := by
    rw [hMc, hCl, hMG]
  have hMY : mmul Mp (zeroMat GtVi.length 1) = .ok (zeroMat Mp.length 1) :=
    mmul_zeroMat Mp GtVi.length (List.length_pos.mpr hG0) hMr hMpc
  rw [hMplen] at hMY
  have hPp : madd P (zeroMat P.length 1) = .ok P := madd_zero_right P hPr hPc
  exact calc_m_plus_w_ok P M_inv D V D G Vi GtVi (zeroMat D.length 1)
    (zeroMat GtVi.length 1) W MW Mp (zeroMat P.length 1) P v
    hVi hGt hDT hY hW hMW hM hMY hPp

theorem c6_witness :
    (calc_m_plus_w [[5]] [[1]] [[7]] [[2]] [[7]] [[3]] false).fst =
      .ok ([[5]], [[(2 : ℚ)/11]]) := by
  refine c6_zero_information_update [[5]] [[1]] [[7]] [[2]] [[3]]
    [[(1 : ℚ)/2]] [[(3 : ℚ)/2]] [[(9 : ℚ)/2]] [[(11 : ℚ)/2]] [[(2 : ℚ)/11]] false
    ?_ ?_ (by simp) (by rfl) (by rfl) (by simp) (by rfl) ?_ ?_ ?_
    (by rfl) (by rfl) (by rfl)
  · rw [la_inv_1x1 2 two_ne_zero]
    norm_num
  · rw [transpose_one_one, mmul_11_11]
    norm_num
  · rw [mmul_11_11]
    norm_num
  · rw [madd_11]
    norm_num
  · rw [la_inv_1x1 ((11 : ℚ)/2) (by norm_num)]
    norm_num

theorem method2_unknown_counts (np_sqrt : ℚ → ℚ) (r dr : List ℚ) (n dn : ℚ)
    (v : Bool) (s c : String) (hc1 : c ≠ exp_str) (hc2 : c ≠ theo_str) :
    (method2 np_sqrt r dr n dn v s c).fst = .error .unknownCountsMethod := by
  unfold method2
  simp [hc1, hc2]

theorem method2_unknown_sens_theo (np_sqrt : ℚ → ℚ) (r dr : List ℚ) (n dn : ℚ)
    (v : Bool) (s : String) (hs1 : s ≠ exp_str) (hs2 : s ≠ theo_str) :
    (method2 np_sqrt r dr n dn v s theo_str).fst =
      .error .unknownSensCountsMethod := by
  unfold method2
  have h1 : ¬ (theo_str = exp_str) := by simp [theo_str, exp_str]
  simp [h1, hs1, hs2]

theorem method2_unknown_sens_exp (np_sqrt : ℚ → ℚ) (r dr : List ℚ) (n dn : ℚ)
    (v : Bool) (s : String) (P1 M1 : Mat) (t : List Ev)
    (hs1 : s ≠ exp_str) (hs2 : s ≠ theo_str)
    (hm : method1 np_sqrt r dr n dn false = (.ok (P1, M1), t)) :
    (method2 np_sqrt r dr n dn v s exp_str).fst =
      .error .unknownSensCountsMethod := by
  unfold method2
  simp [hm, hs1, hs2]

theorem method2_counts_exp_method1_error (np_sqrt : ℚ → ℚ) (r dr : List ℚ)
    (n dn : ℚ) (v : Bool) (s : String) (e : Err) (t : List Ev)
    (hm : method1 np_sqrt r dr n dn false = (.error e, t)) :
    (method2 np_sqrt r dr n dn v s exp_str).fst = .error e := by
  unfold method2
  simp [hm, exp_str]

theorem get_gls_estimate_unc_error_pair (np_sqrt : ℚ → ℚ) (Y V X : Mat)
    (v : Bool) (e : Err) (h : get_gls_unc np_sqrt V (some X) = .error e) :
    get_gls_estimate np_sqrt Y V (some X) v = (.error e, []) := by
  unfold get_gls_estimate
  simp only [Option.getD_some, h]

theorem method1_gls_error (np_sqrt : ℚ → ℚ) (r dr : List ℚ) (n dn : ℚ)
    (v : Bool) (e : Err) (t0 : List Ev)
    (hg : get_gls_estimate np_sqrt [[r.getD 0 0], [r.getD 1 0]]
        (np_diag (dr.map (fun x => x ^ 2))) none false = (.error e, t0)) :
    method1 np_sqrt r dr n dn v = (.error e, []) := by
  unfold method1
  simp only [hg]

theorem method1_unfold (np_sqrt : ℚ → ℚ) (r dr : List ℚ) (n dn : ℚ) (v : Bool)
    (Dav unc Pp Mp : Mat) (t0 t1 : List Ev)
    (hg : get_gls_estimate np_sqrt [[r.getD 0 0], [r.getD 1 0]]
        (np_diag (dr.map (fun x => x ^ 2))) none false = (.ok (Dav, unc), t0))
    (hc : calc_m_plus_w [[idx Dav 0 0 / n], [n]]
        [[0, 0], [0, 1 / dn ^ 2]] [[r.getD 0 0], [r.getD 1 0]]
        (np_diag (dr.map (fun x => x ^ 2)))
        [[n * (idx Dav 0 0 / n)], [n * (idx Dav 0 0 / n)]]
        [[n, idx Dav 0 0 / n], [n, idx Dav 0 0 / n]] false = (.ok (Pp, Mp), t1)) :
    method1 np_sqrt r dr n dn v =
      (.ok (Pp, Mp), if v then print_parameters Pp Mp else []) := by
  unfold method1
  simp only [hg, hc]

theorem method1_singular_dr_zero :
    method1 (fun q => q) [1, 1] [0, 0] 1 1 false = (.error .singular, []) := by
  have hV : np_diag (([0, 0] : List ℚ).map (fun x => x ^ 2)) =
      ([[0, 0], [0, 0]] : Mat) := by
    simp only [List.map_cons, List.map_nil]
    rw [np_diag_two]
    norm_num
  have hunc : get_gls_unc (fun q => q) ([[0, 0], [0, 0]] : Mat)
      (some (np_ones (List.length ([[0, 0], [0, 0]] : Mat)) 1)) =
        .error .singular := by
    unfold get_gls_unc
    simp only [Option.getD_some]
    rw [if_neg (by simp [rectb, nCols]), if_neg (by simp [nCols]),
      if_neg (by simp [np_ones])]
    rw [la_inv_2x2_singular 0 0 0 0 (by norm_num)]
    rfl
  have hg : get_gls_estimate (fun q => q)
      [[([1, 1] : List ℚ).getD 0 0], [([1, 1] : List ℚ).getD 1 0]]
      (np_diag (([0, 0] : List ℚ).map (fun x => x ^ 2))) none false =
        (.error .singular, []) := by
    rw [hV, get_gls_estimate_default_X]
    exact get_gls_estimate_unc_error_pair (fun q => q)
      [[([1, 1] : List ℚ).getD 0 0], [([1, 1] : List ℚ).getD 1 0]]
      [[0, 0], [0, 0]] (np_ones (List.length ([[0, 0], [0, 0]] : Mat)) 1)
      false .singular hunc
  exact method1_gls_error (fun q => q) [1, 1] [0, 0] 1 1 false .singular [] hg

/-- C7 (amended): an invalid `counts_method` fails with the `NameError`
naming `counts_method`; an invalid `sens_method` fails with the `NameError`
naming `sens_method` — but that check happens only AFTER the prior `X` is
computed (for `counts_method='exp'` this runs the whole Method-1
computation), so a provider failure during the prior computation preempts
the `UnknownVariantError`; both errors are raised before `V` is
constructed. -/
theorem c7_unknown_variant :
    (∀ (np_sqrt : ℚ → ℚ) (r dr : List ℚ) (n dn : ℚ) (v : Bool) (s c : String),
      c ≠ exp_str → c ≠ theo_str →
      (method2 np_sqrt r dr n dn v s c).fst = .error .unknownCountsMethod) ∧
    (∀ (np_sqrt : ℚ → ℚ) (r dr : List ℚ) (n dn : ℚ) (v : Bool) (s : String),
      s ≠ exp_str → s ≠ theo_str →
      (method2 np_sqrt r dr n dn v s theo_str).fst =
        .error .unknownSensCountsMethod) ∧
    (∀ (np_sqrt : ℚ → ℚ) (r dr : List ℚ) (n dn : ℚ) (v : Bool) (s : String)
      (P1 M1 : Mat) (t : List Ev),
      s ≠ exp_str → s ≠ theo_str →
      method1 np_sqrt r dr n dn false = (.ok (P1, M1), t) →
      (method2 np_sqrt r dr n dn v s exp_str).fst =
        .error .unknownSensCountsMethod) ∧
    (∀ (np_sqrt : ℚ → ℚ) (r dr : List ℚ) (n dn : ℚ) (v : Bool) (s : String)
      (e : Err) (t : List Ev),
      method1 np_sqrt r dr n dn false = (.error e, t) →
      (method2 np_sqrt r dr n dn v s exp_str).fst = .error e) :=
  ⟨method2_unknown_counts,
   method2_unknown_sens_theo,
   fun np_sqrt r dr n dn v s P1 M1 t hs1 hs2 hm =>
     method2_unknown_sens_exp np_sqrt r dr n dn v s P1 M1 t hs1 hs2 hm,
   method2_counts_exp_method1_error⟩

theorem c7_witness :
    (method2 (fun q => q) [] [] 1 1 false exp_str bad_str).fst =
      .error .unknownCountsMethod := by
  exact c7_unknown_variant.1 (fun q => q) [] [] 1 1 false exp_str bad_str
    (by simp [bad_str, exp_str]) (by simp [bad_str, theo_str])

theorem c7_counterexample :
    (method2 (fun q => q) [1, 1] [0, 0] 1 1 false bad_str exp_str).fst =
      .error .singular ∧
    Err.singular ≠ Err.unknownCountsMethod ∧
    Err.singular ≠ Err.unknownSensCountsMethod := by
  refine ⟨?_, by decide, by decide⟩
  exact method2_counts_exp_method1_error (fun q => q) [1, 1] [0, 0] 1 1 false
    bad_str .singular [] method1_singular_dr_zero

theorem calc_m_plus_w_ok_pair (P M_inv D V T G Vi GtVi DT Y W MW Mp MY Pp : Mat)
    (hVi : la_inv V = .ok Vi) (hGt : mmul (transpose G) Vi = .ok GtVi)
    (hDT : msub D T = .ok DT) (hY : mmul GtVi DT = .ok Y)
    (hW : mmul GtVi G = .ok W) (hMW : madd M_inv W = .ok MW)
    (hM : la_inv MW = .ok Mp) (hMY : mmul Mp Y = .ok MY)
    (hP : madd P MY = .ok Pp) :
    calc_m_plus_w P M_inv D V T G false = (.ok (Pp, Mp), []) := by
  unfold calc_m_plus_w
  simp only [hVi, hGt, hDT, hY, hW, hMW, hM, hMY, hP]
  rfl

theorem get_gls_estimate_ok_pair (np_sqrt : ℚ → ℚ)
    (Y V X unc Vi XtVi XtViX const cXt cXtVi est : Mat)
    (h0 : get_gls_unc np_sqrt V (some X) = .ok unc)
    (hY1 : nCols Y = 1) (hY2 : Y.length = V.length)
    (hVi : la_inv V = .ok Vi) (h2 : mmul (transpose X) Vi = .ok XtVi)
    (h3 : mmul XtVi X = .ok XtViX) (h4 : la_inv XtViX = .ok const)
    (h5 : mmul const (transpose X) = .ok cXt)
    (h6 : mmul cXt Vi = .ok cXtVi)
    (h7 : mmul cXtVi Y = .ok est) :
    get_gls_estimate np_sqrt Y V (some X) false = (.ok (est, unc), []) := by
  unfold get_gls_estimate
  simp only [Option.getD_some, h0]
  rw [if_neg (by simp [hY1]), if_neg (by simp [hY2])]
  simp only [hVi, h2, h3, h4, h5, h6, h7]
  rfl

/-- C4 (amended): with the default selectors, Method 2 takes as its prior for
`X` the FIRST COMPONENT OF THE METHOD-1 POSTERIOR (not a GLS estimate of
`D = r/n` under the Method-2 covariance), and then delegates to the M+W
updater with data `D = r/n`, the Method-2 covariance
`V[i,i] = dr_i²/n² + (dn²/n²)·D_i²` (off-diagonal `(dn²/n²)·D_0·D_1`),
sensitivity `G = [1,1]ᵀ`, theory `T = [X,X]ᵀ` and the 1×1 zero prior
inverse-covariance; a failure of the Method-1 prior computation is returned
as-is. -/
theorem c4_method2_prior_and_delegation (np_sqrt : ℚ → ℚ) (r dr : List ℚ)
    (n dn : ℚ) (v : Bool) :
    (method2 np_sqrt r dr n dn v exp_str exp_str).fst =
      match (method1 np_sqrt r dr n dn false).fst with
      | .error e => .error e
      | .ok (P1, _) =>
        (calc_m_plus_w [[idx P1 0 0]] [[0]]
          [[r.getD 0 0 / n], [r.getD 1 0 / n]]
          [[(dr.map (fun x => x ^ 2)).getD 0 0 / n ^ 2 +
              dn ^ 2 / n ^ 2 * idx [[r.getD 0 0 / n], [r.getD 1 0 / n]] 0 0 ^ 2,
            dn ^ 2 / n ^ 2 * idx [[r.getD 0 0 / n], [r.getD 1 0 / n]] 0 0 *
              idx [[r.getD 0 0 / n], [r.getD 1 0 / n]] 1 0],
           [dn ^ 2 / n ^ 2 * idx [[r.getD 0 0 / n], [r.getD 1 0 / n]] 0 0 *
              idx [[r.getD 0 0 / n], [r.getD 1 0 / n]] 1 0,
            (dr.map (fun x => x ^ 2)).getD 1 0 / n ^ 2 +
              dn ^ 2 / n ^ 2 * idx [[r.getD 0 0 / n], [r.getD 1 0 / n]] 1 0 ^ 2]]
          [[idx P1 0 0], [idx P1 0 0]] [[1], [1]] false).fst := by
  rcases hm : method1 np_sqrt r dr n dn false with ⟨res, t⟩
  cases res with
  | error e =>
    rw [method2_counts_exp_method1_error np_sqrt r dr n dn v exp_str e t hm]
  | ok pm =>
    rcases pm with ⟨P1, M1⟩
    unfold method2
    simp [hm]
    split <;> rename_i heq <;> simp [heq]

theorem method1_singular_dr01 :
    method1 (fun q => q) [1, 1] [0, 1] 1 1 false = (.error .singular, []) := by
  have hV : np_diag (([0, 1] : List ℚ).map (fun x => x ^ 2)) =
      ([[0, 0], [0, 1]] : Mat) := by
    simp only [List.map_cons, List.map_nil]
    rw [np_diag_two]
    norm_num
  have hunc : get_gls_unc (fun q => q) ([[0, 0], [0, 1]] : Mat)
      (some (np_ones (List.length ([[0, 0], [0, 1]] : Mat)) 1)) =
        .error .singular := by
    unfold get_gls_unc
    simp only [Option.getD_some]
    rw [if_neg (by simp [rectb, nCols]), if_neg (by simp [nCols]),
      if_neg (by simp [np_ones])]
    rw [la_inv_2x2_singular 0 0 0 1 (by norm_num)]
    rfl
  have hg : get_gls_estimate (fun q => q)
      [[([1, 1] : List ℚ).getD 0 0], [([1, 1] : List ℚ).getD 1 0]]
      (np_diag (([0, 1] : List ℚ).map (fun x => x ^ 2))) none false =
        (.error .singular, []) := by
    rw [hV, get_gls_estimate_default_X]
    exact get_gls_estimate_unc_error_pair (fun q => q)
      [[([1, 1] : List ℚ).getD 0 0], [([1, 1] : List ℚ).getD 1 0]]
      [[0, 0], [0, 1]] (np_ones (List.length ([[0, 0], [0, 1]] : Mat)) 1)
      false .singular hunc
  exact method1_gls_error (fun q => q) [1, 1] [0, 1] 1 1 false .singular [] hg

theorem method2_claimed_prior_eval :
    method2_claimed_prior (fun q => q) [1, 1] [0, 1] 1 1 =
      (.ok ([[1]], [[1]]), []) := by
  have hVi : la_inv ([[1, 1], [1, 2]] : Mat) = .ok [[2, -1], [-1, 1]] := by
    rw [la_inv_2x2 1 1 1 2 (by norm_num)]
    norm_num
  have hXtVi : mmul (transpose [[1], [1]]) [[2, -1], [-1, 1]] = .ok [[1, 0]] := by
    rw [transpose_two_one, mmul_12_22]
    norm_num
  have hXtViX : mmul [[1, 0]] [[1], [1]] = .ok [[1]] := by
    rw [mmul_12_21]
    norm_num
  have hS : la_inv ([[1]] : Mat) = .ok [[1]] := by
    rw [la_inv_1x1 1 one_ne_zero]
    norm_num
  have h0 : get_gls_unc (fun q => q) ([[1, 1], [1, 2]] : Mat) (some [[1], [1]]) =
      .ok [[1]] := by
    have := get_gls_unc_ok (fun q => q) [[1, 1], [1, 2]] [[1], [1]]
      [[2, -1], [-1, 1]] [[1, 0]] [[1]] [[1]]
      (by rfl) (by simp) (by rfl) (by rfl) hVi hXtVi hXtViX hS
    simpa using this
  have hcXt : mmul [[1]] (transpose [[1], [1]]) = .ok [[1, 1]] := by
    rw [transpose_two_one, mmul_11_12]
    norm_num
  have hcXtVi : mmul [[1, 1]] [[2, -1], [-1, 1]] = .ok [[1, 0]] := by
    rw [mmul_12_22]
    norm_num
  have hest : mmul [[1, 0]] [[1], [1]] = .ok [[1]] := by
    rw [mmul_12_21]
    norm_num
  have hfinal : get_gls_estimate (fun q => q) [[1], [1]] [[1, 1], [1, 2]]
      (some [[1], [1]]) false = (.ok ([[1]], [[1]]), []) :=
    get_gls_estimate_ok_pair (fun q => q) [[1], [1]] [[1, 1], [1, 2]] [[1], [1]]
      [[1]] [[2, -1], [-1, 1]] [[1, 0]] [[1]] [[1]] [[1, 1]] [[1, 0]] [[1]]
      h0 (by rfl) (by rfl) hVi hXtVi hXtViX hS hcXt hcXtVi hest
  unfold method2_claimed_prior
  dsimp only
  have hD : ([[(([1, 1] : List ℚ)).getD 0 0 / 1], [([1, 1] : List ℚ).getD 1 0 / 1]] : Mat) =
      [[1], [1]] := by norm_num
  rw [hD]
  have hV2 : ([[(([0, 1] : List ℚ).map (fun x => x ^ 2)).getD 0 0 / (1 : ℚ) ^ 2 +
        (1 : ℚ) ^ 2 / (1 : ℚ) ^ 2 * idx [[1], [1]] 0 0 ^ 2,
      (1 : ℚ) ^ 2 / (1 : ℚ) ^ 2 * idx [[1], [1]] 0 0 * idx [[1], [1]] 1 0],
     [(1 : ℚ) ^ 2 / (1 : ℚ) ^ 2 * idx [[1], [1]] 0 0 * idx [[1], [1]] 1 0,
      (([0, 1] : List ℚ).map (fun x => x ^ 2)).getD 1 0 / (1 : ℚ) ^ 2 +
        (1 : ℚ) ^ 2 / (1 : ℚ) ^ 2 * idx [[1], [1]] 1 0 ^ 2]] : Mat) =
      [[1, 1], [1, 2]] := by norm_num [idx]
  rw [hV2, get_gls_estimate_default_X]
  exact hfinal

theorem c4_counterexample :
    (method2 (fun q => q) [1, 1] [0, 1] 1 1 false exp_str exp_str).fst =
      .error .singular ∧
    method2_claimed_prior (fun q => q) [1, 1] [0, 1] 1 1 =
      (.ok ([[1]], [[1]]), []) :=
  ⟨method2_counts_exp_method1_error (fun q => q) [1, 1] [0, 1] 1 1 false
      exp_str .singular [] method1_singular_dr01,
   method2_claimed_prior_eval⟩

theorem gls_estimate_diag2_ones (np_sqrt : ℚ → ℚ) (r0 r1 a b : ℚ)
    (ha : 0 < a) (hb : 0 < b) :
    get_gls_estimate np_sqrt [[r0], [r1]] [[a, 0], [0, b]] none false =
      (.ok ([[(a⁻¹ + b⁻¹)⁻¹ * a⁻¹ * r0 + (a⁻¹ + b⁻¹)⁻¹ * b⁻¹ * r1]],
            [[np_sqrt ((a⁻¹ + b⁻¹)⁻¹)]]), []) := by
  have ha0 : a ≠ 0 := ne_of_gt ha
  have hb0 : b ≠ 0 := ne_of_gt hb
  have hs : a⁻¹ + b⁻¹ ≠ 0 :=
    ne_of_gt (add_pos (inv_pos.mpr ha) (inv_pos.mpr hb))
  have hVi : la_inv ([[a, 0], [0, b]] : Mat) = .ok [[a⁻¹, 0], [0, b⁻¹]] :=
    la_inv_diag2 a b ha0 hb0
  have hXtVi : mmul (transpose [[1], [1]]) [[a⁻¹, 0], [0, b⁻¹]] =
      .ok [[a⁻¹, b⁻¹]] := by
    rw [transpose_two_one, mmul_12_22]
    norm_num
  have hXtViX : mmul [[a⁻¹, b⁻¹]] [[1], [1]] = .ok [[a⁻¹ + b⁻¹]] := by
    rw [mmul_12_21]
    norm_num
  have hS : la_inv ([[a⁻¹ + b⁻¹]] : Mat) = .ok [[(a⁻¹ + b⁻¹)⁻¹]] :=
    la_inv_1x1 _ hs
  have h0 : get_gls_unc np_sqrt ([[a, 0], [0, b]] : Mat) (some [[1], [1]]) =
      .ok [[np_sqrt ((a⁻¹ + b⁻¹)⁻¹)]] := by
    have := get_gls_unc_ok np_sqrt [[a, 0], [0, b]] [[1], [1]]
      [[a⁻¹, 0], [0, b⁻¹]] [[a⁻¹, b⁻¹]] [[a⁻¹ + b⁻¹]] [[(a⁻¹ + b⁻¹)⁻¹]]
      (by rfl) (by simp) (by rfl) (by rfl) hVi hXtVi hXtViX hS
    simpa using this
  have hcXt : mmul [[(a⁻¹ + b⁻¹)⁻¹]] (transpose [[1], [1]]) =
      .ok [[(a⁻¹ + b⁻¹)⁻¹, (a⁻¹ + b⁻¹)⁻¹]] := by
    rw [transpose_two_one, mmul_11_12]
    norm_num
  have hcXtVi : mmul [[(a⁻¹ + b⁻¹)⁻¹, (a⁻¹ + b⁻¹)⁻¹]] [[a⁻¹, 0], [0, b⁻¹]] =
      .ok [[(a⁻¹ + b⁻¹)⁻¹ * a⁻¹, (a⁻¹ + b⁻¹)⁻¹ * b⁻¹]] := by
    rw [mmul_12_22]
    norm_num
  have hest : mmul [[(a⁻¹ + b⁻¹)⁻¹ * a⁻¹, (a⁻¹ + b⁻¹)⁻¹ * b⁻¹]] [[r0], [r1]] =
      .ok [[(a⁻¹ + b⁻¹)⁻¹ * a⁻¹ * r0 + (a⁻¹ + b⁻¹)⁻¹ * b⁻¹ * r1]] := by
    rw [mmul_12_21]
  have hlen : np_ones (List.length ([[a, 0], [0, b]] : Mat)) 1 = [[1], [1]] := by
    rw [show List.length ([[a, 0], [0, b]] : Mat) = 2 by rfl, np_ones_21]
  rw [get_gls_estimate_default_X, hlen]
  exact get_gls_estimate_ok_pair np_sqrt [[r0], [r1]] [[a, 0], [0, b]] [[1], [1]]
    [[np_sqrt ((a⁻¹ + b⁻¹)⁻¹)]] [[a⁻¹, 0], [0, b⁻¹]] [[a⁻¹, b⁻¹]] [[a⁻¹ + b⁻¹]]
    [[(a⁻¹ + b⁻¹)⁻¹]] [[(a⁻¹ + b⁻¹)⁻¹, (a⁻¹ + b⁻¹)⁻¹]]
    [[(a⁻¹ + b⁻¹)⁻¹ * a⁻¹, (a⁻¹ + b⁻¹)⁻¹ * b⁻¹]]
    [[(a⁻¹ + b⁻¹)⁻¹ * a⁻¹ * r0 + (a⁻¹ + b⁻¹)⁻¹ * b⁻¹ * r1]]
    h0 (by rfl) (by rfl) hVi hXtVi hXtViX hS hcXt hcXtVi hest

theorem calc_m_plus_w_method1_shape (r0 r1 a b n dn X : ℚ)
    (ha : 0 < a) (hb : 0 < b) (hn : n ≠ 0) (hdn : dn ≠ 0)
    (hX : n * X = (a⁻¹ + b⁻¹)⁻¹ * a⁻¹ * r0 + (a⁻¹ + b⁻¹)⁻¹ * b⁻¹ * r1) :
    ∃ M : Mat, calc_m_plus_w [[X], [n]] [[0, 0], [0, 1 / dn ^ 2]] [[r0], [r1]]
      [[a, 0], [0, b]] [[n * X], [n * X]] [[n, X], [n, X]] false =
      (.ok ([[X], [n]], M), []) := by
  have ha0 : a ≠ 0 := ne_of_gt ha
  have hb0 : b ≠ 0 := ne_of_gt hb
  have hs : a⁻¹ + b⁻¹ ≠ 0 :=
    ne_of_gt (add_pos (inv_pos.mpr ha) (inv_pos.mpr hb))
  have hVi : la_inv ([[a, 0], [0, b]] : Mat) = .ok [[a⁻¹, 0], [0, b⁻¹]] :=
    la_inv_diag2 a b ha0 hb0
  have hGt : mmul (transpose [[n, X], [n, X]]) [[a⁻¹, 0], [0, b⁻¹]] =
      .ok [[n * a⁻¹, n * b⁻¹], [X * a⁻¹, X * b⁻¹]] := by
    rw [transpose_two_two, mmul_22_22]
    norm_num
  have hDT : msub [[r0], [r1]] [[n * X], [n * X]] =
      .ok [[r0 - n * X], [r1 - n * X]] := msub_21 _ _ _ _
  have he1 : n * a⁻¹ * (r0 - n * X) + n * b⁻¹ * (r1 - n * X) = 0 := by
    rw [hX]
    field_simp
    ring
  have he2 : X * a⁻¹ * (r0 - n * X) + X * b⁻¹ * (r1 - n * X) = 0 := by
    rw [hX]
    field_simp
    ring
  have hY : mmul [[n * a⁻¹, n * b⁻¹], [X * a⁻¹, X * b⁻¹]]
      [[r0 - n * X], [r1 - n * X]] = .ok [[0], [0]] := by
    rw [mmul_22_21, he1, he2]
  have hW : mmul [[n * a⁻¹, n * b⁻¹], [X * a⁻¹, X * b⁻¹]] [[n, X], [n, X]] =
      .ok [[n * a⁻¹ * n + n * b⁻¹ * n, n * a⁻¹ * X + n * b⁻¹ * X],
           [X * a⁻¹ * n + X * b⁻¹ * n, X * a⁻¹ * X + X * b⁻¹ * X]] :=
    mmul_22_22 _ _ _ _ _ _ _ _
  have hMW : madd [[0, 0], [0, 1 / dn ^ 2]]
      [[n * a⁻¹ * n + n * b⁻¹ * n, n * a⁻¹ * X + n * b⁻¹ * X],
       [X * a⁻¹ * n + X * b⁻¹ * n, X * a⁻¹ * X + X * b⁻¹ * X]] =
      .ok [[0 + (n * a⁻¹ * n + n * b⁻¹ * n), 0 + (n * a⁻¹ * X + n * b⁻¹ * X)],
           [0 + (X * a⁻¹ * n + X * b⁻¹ * n),
            1 / dn ^ 2 + (X * a⁻¹ * X + X * b⁻¹ * X)]] :=
    madd_22 _ _ _ _ _ _ _ _
  have hdeq : (0 + (n * a⁻¹ * n + n * b⁻¹ * n)) *
        (1 / dn ^ 2 + (X * a⁻¹ * X + X * b⁻¹ * X)) -
      (0 + (n * a⁻¹ * X + n * b⁻¹ * X)) * (0 + (X * a⁻¹ * n + X * b⁻¹ * n)) =
      n ^ 2 * (a⁻¹ + b⁻¹) / dn ^ 2 := by
    ring
  have hdet : (0 + (n * a⁻¹ * n + n * b⁻¹ * n)) *
        (1 / dn ^ 2 + (X * a⁻¹ * X + X * b⁻¹ * X)) -
      (0 + (n * a⁻¹ * X + n * b⁻¹ * X)) * (0 + (X * a⁻¹ * n + X * b⁻¹ * n)) ≠
      0 := by
    rw [hdeq]
    exact div_ne_zero (mul_ne_zero (pow_ne_zero 2 hn) hs) (pow_ne_zero 2 hdn)
  have hM := la_inv_2x2 (0 + (n * a⁻¹ * n + n * b⁻¹ * n))
    (0 + (n * a⁻¹ * X + n * b⁻¹ * X)) (0 + (X * a⁻¹ * n + X * b⁻¹ * n))
    (1 / dn ^ 2 + (X * a⁻¹ * X + X * b⁻¹ * X)) hdet
  have hMY : mmul ((fun d => [[d⁻¹ * (1 / dn ^ 2 + (X * a⁻¹ * X + X * b⁻¹ * X)),
        d⁻¹ * (-(0 + (n * a⁻¹ * X + n * b⁻¹ * X)))],
       [d⁻¹ * (-(0 + (X * a⁻¹ * n + X * b⁻¹ * n))),
        d⁻¹ * (0 + (n * a⁻¹ * n + n * b⁻¹ * n))]])
      ((0 + (n * a⁻¹ * n + n * b⁻¹ * n)) *
          (1 / dn ^ 2 + (X * a⁻¹ * X + X * b⁻¹ * X)) -
        (0 + (n * a⁻¹ * X + n * b⁻¹ * X)) * (0 + (X * a⁻¹ * n + X * b⁻¹ * n))))
      [[0], [0]] = .ok [[0], [0]] := by
    rw [mmul_22_21]
    norm_num
  have hPp : madd [[X], [n]] [[0], [0]] = .ok [[X], [n]] := by
    rw [madd_21]
    norm_num
  exact ⟨_, calc_m_plus_w_ok_pair _ _ _ _ _ _ _ _ _ _ _ _ _ _ _
    hVi hGt hDT hY hW hMW hM hMY hPp⟩

/-- C10: for positive counts and uncertainties and nonzero `n`, `dn`, the
Method-1 posterior parameter vector equals its prior exactly:
`P' = [X, n]ᵀ` with `X` the inverse-variance-weighted (GLS) average of the
raw counts under `V = diag(dr²)`, divided by `n` — the M+W correction
vanishes because the GLS residuals `D − T` are orthogonal to both columns of
`G` under the `V⁻¹` weighting, so only the returned covariance carries new
information. -/
theorem c10_method1_posterior_equals_prior (np_sqrt : ℚ → ℚ)
    (r0 r1 dr0 dr1 n dn : ℚ) (v : Bool)
    (_hr0 : 0 < r0) (_hr1 : 0 < r1) (hd0 : 0 < dr0) (hd1 : 0 < dr1)
    (hn : n ≠ 0) (hdn : dn ≠ 0) :
    ((method1 np_sqrt [r0, r1] [dr0, dr1] n dn v).fst).map Prod.fst =
      .ok [[((dr0 ^ 2)⁻¹ + (dr1 ^ 2)⁻¹)⁻¹ * (r0 / dr0 ^ 2 + r1 / dr1 ^ 2) / n],
           [n]] := by
  have h2a : (0 : ℚ) < dr0 ^ 2 := pow_pos hd0 2
  have h2b : (0 : ℚ) < dr1 ^ 2 := pow_pos hd1 2
  have hg0 := gls_estimate_diag2_ones np_sqrt r0 r1 (dr0 ^ 2) (dr1 ^ 2) h2a h2b
  have hD : ([[([r0, r1] : List ℚ).getD 0 0],
      [([r0, r1] : List ℚ).getD 1 0]] : Mat) = [[r0], [r1]] := by
    simp
  have hVd : np_diag (([dr0, dr1] : List ℚ).map (fun x => x ^ 2)) =
      ([[dr0 ^ 2, 0], [0, dr1 ^ 2]] : Mat) := by
    simp only [List.map_cons, List.map_nil]
    rw [np_diag_two]
  have hXrel : n * (idx ([[((dr0 ^ 2)⁻¹ + (dr1 ^ 2)⁻¹)⁻¹ * (dr0 ^ 2)⁻¹ * r0 +
      ((dr0 ^ 2)⁻¹ + (dr1 ^ 2)⁻¹)⁻¹ * (dr1 ^ 2)⁻¹ * r1]] : Mat) 0 0 / n) =
      ((dr0 ^ 2)⁻¹ + (dr1 ^ 2)⁻¹)⁻¹ * (dr0 ^ 2)⁻¹ * r0 +
      ((dr0 ^ 2)⁻¹ + (dr1 ^ 2)⁻¹)⁻¹ * (dr1 ^ 2)⁻¹ * r1 := by
    simp only [idx, List.getD_cons_zero]
    field_simp
    ring
  obtain ⟨M, hcalc⟩ := calc_m_plus_w_method1_shape r0 r1 (dr0 ^ 2) (dr1 ^ 2) n dn
    (idx ([[((dr0 ^ 2)⁻¹ + (dr1 ^ 2)⁻¹)⁻¹ * (dr0 ^ 2)⁻¹ * r0 +
      ((dr0 ^ 2)⁻¹ + (dr1 ^ 2)⁻¹)⁻¹ * (dr1 ^ 2)⁻¹ * r1]] : Mat) 0 0 / n)
    h2a h2b hn hdn hXrel
  have hg : get_gls_estimate np_sqrt
      [[([r0, r1] : List ℚ).getD 0 0], [([r0, r1] : List ℚ).getD 1 0]]
      (np_diag (([dr0, dr1] : List ℚ).map (fun x => x ^ 2))) none false =
      (.ok ([[((dr0 ^ 2)⁻¹ + (dr1 ^ 2)⁻¹)⁻¹ * (dr0 ^ 2)⁻¹ * r0 +
          ((dr0 ^ 2)⁻¹ + (dr1 ^ 2)⁻¹)⁻¹ * (dr1 ^ 2)⁻¹ * r1]],
        [[np_sqrt (((dr0 ^ 2)⁻¹ + (dr1 ^ 2)⁻¹)⁻¹)]]), []) := by
    rw [hD, hVd]
    exact hg0
  have hc : calc_m_plus_w
      [[idx ([[((dr0 ^ 2)⁻¹ + (dr1 ^ 2)⁻¹)⁻¹ * (dr0 ^ 2)⁻¹ * r0 +
          ((dr0 ^ 2)⁻¹ + (dr1 ^ 2)⁻¹)⁻¹ * (dr1 ^ 2)⁻¹ * r1]] : Mat) 0 0 / n], [n]]
      [[0, 0], [0, 1 / dn ^ 2]]
      [[([r0, r1] : List ℚ).getD 0 0], [([r0, r1] : List ℚ).getD 1 0]]
      (np_diag (([dr0, dr1] : List ℚ).map (fun x => x ^ 2)))
      [[n * (idx ([[((dr0 ^ 2)⁻¹ + (dr1 ^ 2)⁻¹)⁻¹ * (dr0 ^ 2)⁻¹ * r0 +
          ((dr0 ^ 2)⁻¹ + (dr1 ^ 2)⁻¹)⁻¹ * (dr1 ^ 2)⁻¹ * r1]] : Mat) 0 0 / n)],
       [n * (idx ([[((dr0 ^ 2)⁻¹ + (dr1 ^ 2)⁻¹)⁻¹ * (dr0 ^ 2)⁻¹ * r0 +
          ((dr0 ^ 2)⁻¹ + (dr1 ^ 2)⁻¹)⁻¹ * (dr1 ^ 2)⁻¹ * r1]] : Mat) 0 0 / n)]]
      [[n, idx ([[((dr0 ^ 2)⁻¹ + (dr1 ^ 2)⁻¹)⁻¹ * (dr0 ^ 2)⁻¹ * r0 +
          ((dr0 ^ 2)⁻¹ + (dr1 ^ 2)⁻¹)⁻¹ * (dr1 ^ 2)⁻¹ * r1]] : Mat) 0 0 / n],
       [n, idx ([[((dr0 ^ 2)⁻¹ + (dr1 ^ 2)⁻¹)⁻¹ * (dr0 ^ 2)⁻¹ * r0 +
          ((dr0 ^ 2)⁻¹ + (dr1 ^ 2)⁻¹)⁻¹ * (dr1 ^ 2)⁻¹ * r1]] : Mat) 0 0 / n]]
      false =
      (.ok ([[idx ([[((dr0 ^ 2)⁻¹ + (dr1 ^ 2)⁻¹)⁻¹ * (dr0 ^ 2)⁻¹ * r0 +
          ((dr0 ^ 2)⁻¹ + (dr1 ^ 2)⁻¹)⁻¹ * (dr1 ^ 2)⁻¹ * r1]] : Mat) 0 0 / n],
        [n]], M), []) := by
    rw [hD, hVd]
    exact hcalc
  have hm := method1_unfold np_sqrt [r0, r1] [dr0, dr1] n dn v
    [[((dr0 ^ 2)⁻¹ + (dr1 ^ 2)⁻¹)⁻¹ * (dr0 ^ 2)⁻¹ * r0 +
      ((dr0 ^ 2)⁻¹ + (dr1 ^ 2)⁻¹)⁻¹ * (dr1 ^ 2)⁻¹ * r1]]
    [[np_sqrt (((dr0 ^ 2)⁻¹ + (dr1 ^ 2)⁻¹)⁻¹)]]
    [[idx ([[((dr0 ^ 2)⁻¹ + (dr1 ^ 2)⁻¹)⁻¹ * (dr0 ^ 2)⁻¹ * r0 +
        ((dr0 ^ 2)⁻¹ + (dr1 ^ 2)⁻¹)⁻¹ * (dr1 ^ 2)⁻¹ * r1]] : Mat) 0 0 / n], [n]]
    M [] [] hg hc
  rw [hm]
  simp only [Except.map, idx, List.getD_cons_zero]
  have hAeq : ((dr0 ^ 2)⁻¹ + (dr1 ^ 2)⁻¹)⁻¹ * (dr0 ^ 2)⁻¹ * r0 +
      ((dr0 ^ 2)⁻¹ + (dr1 ^ 2)⁻¹)⁻¹ * (dr1 ^ 2)⁻¹ * r1 =
      ((dr0 ^ 2)⁻¹ + (dr1 ^ 2)⁻¹)⁻¹ * (r0 / dr0 ^ 2 + r1 / dr1 ^ 2) := by
    ring
  rw [hAeq]

theorem c10_witness :
    ((method1 (fun q => q) [1, 2] [1, 1] 1 1 false).fst).map Prod.fst =
      .ok [[(3 : ℚ)/2], [1]] := by
  have h := c10_method1_posterior_equals_prior (fun q => q) 1 2 1 1 1 1 false
    one_pos (by norm_num) one_pos one_pos one_ne_zero one_ne_zero
  rw [h]
  norm_num
